import Mathlib

/-!
Verification development for the ambient-music generator
(`src/cli/music/generate_ambient.py`).

The Python program is shallowly embedded as follows.

* The shared pseudo-random source (the Python `random` module, seeded once
  with the constant 123 at module load) is modelled as a `DrawStream`, an
  infinite sequence of unit-interval rational variates, together with a
  cursor index.  Each primitive call (`random.random`, `random.uniform`,
  `random.randint`, `random.choice`) consumes exactly one draw and advances
  the cursor; the derived values are computed from the unit draw in the
  usual way.  Seeding determines the stream; two runs after the same seed
  see the same stream starting at index 0, while a second call of
  `generate_ambient` in one process continues from the cursor left by the
  first call.
* The `midiutil.MIDIFile` object is modelled as an accumulator of tempo
  entries, program-change entries and note events, in insertion order,
  mirroring `addTempo`, `addProgramChange` and `addNote`.
* Times, durations and velocities are exact rationals / integers; the
  melody layer's tonal-center computation uses `Real.sin` exactly as the
  source uses `math.sin`, with Python `int(...)` truncation modelled by
  `pyInt` (floor for non-negatives, ceiling for negatives).
* Each `while` loop of the source is embedded as a fuel-indexed recursion;
  `generate_ambient` supplies enough fuel for every valid draw stream
  (termination is proved below).
-/

namespace Ambient

/-- Draw stream: the shared pseudo-random source modelled as the infinite
sequence of unit-interval variates it produces. -/
def DrawStream : Type := ℕ → ℚ

/-- Validity of a draw stream: every unit draw lies in `[0, 1)`, as
`random.random()` guarantees. -/
def ValidStream (s : DrawStream) : Prop := ∀ n, 0 ≤ s n ∧ s n < 1

/-- Model of `random.random()`: return the next unit draw, advance the cursor. -/
def randRandom (s : DrawStream) (i : ℕ) : ℚ × ℕ := (s i, i + 1)

/-- Model of `random.uniform(a, b)`: affine image of the next unit draw. -/
def randUniform (a b : ℚ) (s : DrawStream) (i : ℕ) : ℚ × ℕ :=
  (a + (b - a) * s i, i + 1)

/-- Model of `random.randint(a, b)`: integer drawn from `[a, b]` (inclusive)
via the floor of a scaled unit draw. -/
def randRandint (a b : ℤ) (s : DrawStream) (i : ℕ) : ℤ × ℕ :=
  (a + ⌊s i * (b - a + 1)⌋, i + 1)

/-- Model of `random.choice(l)`: element of `l` selected by the floor of a
scaled unit draw. -/
def randChoice {α : Type} [Inhabited α] (l : List α) (s : DrawStream) (i : ℕ) :
    α × ℕ :=
  (l.getD (⌊s i * l.length⌋).toNat default, i + 1)

/-- A note event, as recorded by `MIDIFile.addNote(track, channel, pitch,
time, duration, volume)`. -/
structure NoteEvent where
  track : ℕ
  channel : ℕ
  pitch : ℤ
  start : ℚ
  duration : ℚ
  velocity : ℤ
  deriving DecidableEq, Repr

/-- The `midiutil.MIDIFile` accumulator: tempo entries `(track, time, tempo)`,
program-change entries `(track, channel, time, program)`, and note events,
each in insertion order. -/
structure MIDIFile where
  numTracks : ℕ
  tempos : List (ℕ × ℚ × ℕ)
  programs : List (ℕ × ℕ × ℚ × ℕ)
  notes : List NoteEvent
  deriving DecidableEq, Repr

/-- Model of `MIDIFile(n)`. -/
def MIDIFile.mk0 (n : ℕ) : MIDIFile := ⟨n, [], [], []⟩

/-- Model of `midi.addTempo(track, time, tempo)`. -/
def MIDIFile.addTempo (m : MIDIFile) (track : ℕ) (time : ℚ) (tempo : ℕ) :
    MIDIFile :=
  { m with tempos := m.tempos ++ [(track, time, tempo)] }

/-- Model of `midi.addProgramChange(track, channel, time, program)`. -/
def MIDIFile.addProgramChange (m : MIDIFile) (track channel : ℕ) (time : ℚ)
    (program : ℕ) : MIDIFile :=
  { m with programs := m.programs ++ [(track, channel, time, program)] }

/-- Model of `midi.addNote(track, channel, pitch, time, duration, volume)`. -/
def MIDIFile.addNote (m : MIDIFile) (track channel : ℕ) (pitch : ℤ)
    (time duration : ℚ) (velocity : ℤ) : MIDIFile :=
  { m with notes := m.notes ++ [⟨track, channel, pitch, time, duration, velocity⟩] }

/-- The `modes` dictionary of `generate_ambient`: mode name to the ordered
list of semitone offsets. -/
def modes : List (String × List ℤ) :=
  [("lydian", [0, 2, 4, 6, 7, 9, 11]),
   ("dorian", [0, 2, 3, 5, 7, 9, 10]),
   ("mixolydian", [0, 2, 4, 5, 7, 9, 10]),
   ("aeolian", [0, 2, 3, 5, 7, 8, 10])]

/-- `mode_names = list(modes.keys())`, in insertion order. -/
def modeNames : List String := modes.map Prod.fst

/-- The `get_scale(root, mode_name)` helper: `[root + i for i in intervals]`.
The Python dictionary lookup `modes[mode_name]` raises `KeyError` on an
unregistered name; this is modelled by an `Option` result. -/
def get_scale (root : ℤ) (mode_name : String) : Option (List ℤ) :=
  (modes.lookup mode_name).map (fun intervals => intervals.map (root + ·))

/-- The fixed drone root progression `roots = [48, 53, 50, 55, 48, 45, 50, 48]`. -/
def droneRoots : List ℤ := [48, 53, 50, 55, 48, 45, 50, 48]

/-- State of the drone loop: the time cursor and the rotating root index. -/
structure DroneState where
  time : ℚ
  rootIdx : ℕ
  deriving DecidableEq, Repr

/-- One iteration of the drone loop body (source lines 48–62). -/
def droneBody (s : DrawStream) (i : ℕ) (m : MIDIFile) (st : DroneState) :
    ℕ × MIDIFile × DroneState :=
  let (hold, i) := randUniform 35 45 s i
  let root := droneRoots.getD (st.rootIdx % droneRoots.length) 0
  let m := m.addNote 0 0 root st.time hold 30
  let m := m.addNote 0 0 (root + 7) (st.time + 2) (hold - 2) 25
  let (r, i) := randRandom s i
  let (i, m) :=
    if r < 2/5 then
      let (r2, i) := randRandom s i
      let third := if r2 < 3/5 then root + 4 else root + 3
      (i, m.addNote 0 0 third (st.time + 5) (hold - 8) 20)
    else (i, m)
  (i, m, ⟨st.time + hold, st.rootIdx + 1⟩)

/-- The drone loop `while time < duration` (duration = 300), fuel-indexed. -/
def droneLoop (s : DrawStream) : ℕ → ℕ → MIDIFile → DroneState →
    ℕ × MIDIFile × DroneState
  | 0, i, m, st => (i, m, st)
  | fuel + 1, i, m, st =>
    if st.time < 300 then
      let (i, m, st) := droneBody s i m st
      droneLoop s fuel i m st
    else (i, m, st)

/-- Python `int(x)` on a real: truncation toward zero. -/
noncomputable def pyInt (x : ℝ) : ℤ := if 0 ≤ x then ⌊x⌋ else ⌈x⌉

/-- The melody layer's drifting tonal center (source lines 72–73):
`root = 60 + int(math.sin(progress * math.pi * 4) * 5)` with
`progress = time / duration` and `duration = 300`. -/
noncomputable def melodyCenter (time : ℚ) : ℤ :=
  60 + pyInt (Real.sin (((time : ℝ) / 300) * Real.pi * 4) * 5)

/-- State of the melody loop: the time cursor, the current mode name and the
last emitted pitch (`None` initially). -/
structure MelodyState where
  time : ℚ
  mode : String
  lastNote : Option ℤ

/-- The melody gesture for `choice < 0.5` (source lines 84–98): a single
note with intention.  Returns the advanced cursor, the updated accumulator
and the value assigned to `last_note`.  (Python's truthiness test
`if last_note and ...` short-circuits on `None`, modelled by the `Option`
match; melody pitches are never 0, so the `0`-is-falsy corner of Python
truthiness cannot fire.) -/
def gestureSingle (s : DrawStream) (i : ℕ) (m : MIDIFile) (t : ℚ)
    (scale : List ℤ) (lastNote : Option ℤ) : ℕ × MIDIFile × ℤ :=
  let (note, i) :=
    match lastNote with
    | some ln =>
      let (r2, i) := randRandom s i
      if r2 < 3/5 then
        let (step, i) := randChoice ([-1, 1, -2, 2] : List ℤ) s i
        let idx : ℤ :=
          if ln ∈ scale then (scale.indexOf ln : ℤ) else ((scale.length / 2 : ℕ) : ℤ)
        let idx2 := max 0 (min ((scale.length : ℤ) - 1) (idx + step))
        (scale.getD idx2.toNat 0, i)
      else randChoice scale s i
    | none => randChoice scale s i
  let (vel, i) := randRandint 38 58 s i
  let (dur, i) := randUniform (5/2) 6 s i
  (i, m.addNote 0 1 note t dur vel, note)

/-- The melody gesture for `0.5 ≤ choice < 0.7` (source lines 100–109): two
notes a gentle interval apart, `note2 = note1 + interval` in semitones,
`last_note = note1`. -/
def gesturePair (s : DrawStream) (i : ℕ) (m : MIDIFile) (t : ℚ)
    (scale : List ℤ) : ℕ × MIDIFile × ℤ :=
  let (note1, i) := randChoice scale s i
  let (interval, i) := randChoice ([2, 4, 5, 7] : List ℤ) s i
  let note2 := note1 + interval
  let (vel, i) := randRandint 35 50 s i
  let m := m.addNote 0 1 note1 t 4 vel
  let m := m.addNote 0 1 note2 (t + 3/10) (7/2) (vel - 8)
  (i, m, note1)

/-- The melody gesture for `0.7 ≤ choice < 0.85` (source lines 111–119):
a descending 3-note fragment, with the `range(3)` loop unrolled (the loop
recomputes the same `idx` each pass). -/
def gestureDescend (s : DrawStream) (i : ℕ) (m : MIDIFile) (t : ℚ)
    (scale : List ℤ) : ℕ × MIDIFile × ℤ :=
  let (startNote, i) := randChoice (scale.drop 3) s i
  let idx : ℤ :=
    if startNote ∈ scale then (scale.indexOf startNote : ℤ) else 4
  let n0 := scale.getD (max 0 (idx - 0)).toNat 0
  let n1 := scale.getD (max 0 (idx - 1)).toNat 0
  let n2 := scale.getD (max 0 (idx - 2)).toNat 0
  let m := m.addNote 0 1 n0 t 2 50
  let m := m.addNote 0 1 n1 (t + 6/5) 2 42
  let m := m.addNote 0 1 n2 (t + 12/5) 2 34
  (i, m, n2)

/-- The melody gesture for `0.85 ≤ choice` (source lines 121–128): an
ascending 4-note motif, with the `range(4)` loop unrolled. -/
def gestureAscend (s : DrawStream) (i : ℕ) (m : MIDIFile) (t : ℚ)
    (scale : List ℤ) : ℕ × MIDIFile × ℤ :=
  let (startIdx, i) := randRandint 0 3 s i
  let n0 := scale.getD (min (startIdx + 0) ((scale.length : ℤ) - 1)).toNat 0
  let n1 := scale.getD (min (startIdx + 1) ((scale.length : ℤ) - 1)).toNat 0
  let n2 := scale.getD (min (startIdx + 2) ((scale.length : ℤ) - 1)).toNat 0
  let n3 := scale.getD (min (startIdx + 3) ((scale.length : ℤ) - 1)).toNat 0
  let m := m.addNote 0 1 n0 t (5/2) 35
  let m := m.addNote 0 1 n1 (t + 4/5) (5/2) 40
  let m := m.addNote 0 1 n2 (t + 8/5) (5/2) 45
  let m := m.addNote 0 1 n3 (t + 12/5) (5/2) 50
  (i, m, n3)

/-- The trailing gap advance shared by every melody iteration (source lines
131–135): a long contemplative pause with probability 0.15, else a short gap. -/
def melodyGap (s : DrawStream) (i : ℕ) : ℚ × ℕ :=
  let (r3, i) := randRandom s i
  if r3 < 3/20 then randUniform 12 20 s i else randUniform 3 9 s i

/-- The `if choice < 0.5 / elif choice < 0.7 / elif choice < 0.85 / else`
dispatch of the melody loop (source lines 84–128). -/
def gestureDispatch (c : ℚ) (s : DrawStream) (i : ℕ) (m : MIDIFile) (t : ℚ)
    (scale : List ℤ) (lastNote : Option ℤ) : ℕ × MIDIFile × ℤ :=
  if c < 1/2 then gestureSingle s i m t scale lastNote
  else if c < 7/10 then gesturePair s i m t scale
  else if c < 17/20 then gestureDescend s i m t scale
  else gestureAscend s i m t scale

/-- One iteration of the melody loop body (source lines 71–135): drifting
tonal center, occasional mode change, scale derivation, gesture dispatch on
the uniform draw `choice`, last-note update and gap advance. -/
noncomputable def melodyBody (s : DrawStream) (i : ℕ) (m : MIDIFile)
    (st : MelodyState) : ℕ × MIDIFile × MelodyState :=
  let root := melodyCenter st.time
  let p1 := randRandom s i
  let pMode := if p1.1 < 2/25 then randChoice modeNames s p1.2 else (st.mode, p1.2)
  let scale := (get_scale root pMode.1).getD []
  let pC := randRandom s pMode.2
  let g := gestureDispatch pC.1 s pC.2 m st.time scale st.lastNote
  let pG := melodyGap s g.1
  (pG.2, g.2.1, ⟨st.time + pG.1, pMode.1, some g.2.2⟩)

/-- The melody loop `while time < duration - 10`, fuel-indexed. -/
noncomputable def melodyLoop (s : DrawStream) : ℕ → ℕ → MIDIFile → MelodyState →
    ℕ × MIDIFile × MelodyState
  | 0, i, m, st => (i, m, st)
  | fuel + 1, i, m, st =>
    if st.time < 300 - 10 then
      let (i, m, st) := melodyBody s i m st
      melodyLoop s fuel i m st
    else (i, m, st)

/-- The sparkle cascade `for i in range(random.randint(2, 4))` (source lines
149–151), recursion over the list of loop indices. -/
def cascadeLoop (s : DrawStream) (root : ℤ) (time : ℚ) (velocity : ℤ) :
    List ℕ → ℕ → MIDIFile → ℕ × MIDIFile
  | [], i, m => (i, m)
  | j :: rest, i, m =>
    let (c, i) := randChoice ([-5, -3, -2, 2, 3, 5] : List ℤ) s i
    let sparkle := root + c
    let m := m.addNote 0 2 sparkle (time + 2/5 + (j : ℚ) * (1/2)) (6/5)
      (velocity - 10 - 3 * (j : ℤ))
    cascadeLoop s root time velocity rest i m

/-- One iteration of the sparkle loop body (source lines 140–153), including
the trailing gap advance. -/
def sparkleBody (s : DrawStream) (i : ℕ) (m : MIDIFile) (t : ℚ) :
    ℕ × MIDIFile × ℚ :=
  let pR := randRandom s i
  let im :=
    if pR.1 < 7/20 then
      let pC := randChoice ([0, 2, 4, 7, 9] : List ℤ) s pR.2
      let root := 72 + pC.1
      let pV := randRandint 25 45 s pC.2
      let m1 := m.addNote 0 2 root t (3/2) pV.1
      let pR2 := randRandom s pV.2
      if pR2.1 < 3/10 then
        let pN := randRandint 2 4 s pR2.2
        cascadeLoop s root t pV.1 (List.range pN.1.toNat) pN.2 m1
      else (pR2.2, m1)
    else (pR.2, m)
  let pG := randUniform 8 18 s im.1
  (pG.2, im.2, t + pG.1)

/-- The sparkle loop `while time < duration - 5`, fuel-indexed. -/
def sparkleLoop (s : DrawStream) : ℕ → ℕ → MIDIFile → ℚ → ℕ × MIDIFile × ℚ
  | 0, i, m, t => (i, m, t)
  | fuel + 1, i, m, t =>
    if t < 300 - 5 then
      let (i, m, t) := sparkleBody s i m t
      sparkleLoop s fuel i m t
    else (i, m, t)

/-- One swell emission (source lines 158–171) at a fixed timestamp, with the
`enumerate(chord)` loop unrolled. -/
def swellAt (s : DrawStream) (t : ℚ) (i : ℕ) (m : MIDIFile) : ℕ × MIDIFile :=
  if t < 300 - 15 then
    let (c, i) := randChoice ([0, 5, 7, -5] : List ℤ) s i
    let root := 48 + c
    let m := m.addNote 0 3 root t 12 15
    let m := m.addNote 0 3 (root + 7) (t + 1/2) 12 18
    let m := m.addNote 0 3 (root + 12) (t + 1) 12 21
    let m := m.addNote 0 3 (root + 16) (t + 3/2) 12 24
    let (r, i) := randRandom s i
    if r < 3/5 then
      let rising := root + 12
      (i, m.addNote 0 3 (rising + 2) (t + 6) 5 35)
    else (i, m)
  else (i, m)

/-- The swell layer: `for t in swell_times` over `[45, 95, 150, 210, 270]`. -/
def swellLayer (s : DrawStream) (i : ℕ) (m : MIDIFile) : ℕ × MIDIFile :=
  let (i, m) := swellAt s 45 i m
  let (i, m) := swellAt s 95 i m
  let (i, m) := swellAt s 150 i m
  let (i, m) := swellAt s 210 i m
  let (i, m) := swellAt s 270 i m
  (i, m)

/-- One iteration of the bass loop body (source lines 176–179), including the
trailing gap advance. -/
def bassBody (s : DrawStream) (i : ℕ) (m : MIDIFile) (t : ℚ) :
    ℕ × MIDIFile × ℚ :=
  let (r, i) := randRandom s i
  let (i, m) :=
    if r < 2/5 then
      let (c, i) := randChoice ([0, 5, 7] : List ℤ) s i
      let bass := 36 + c
      (i, m.addNote 0 0 bass t 8 28)
    else (i, m)
  let (gap, i) := randUniform 25 45 s i
  (i, m, t + gap)

/-- The bass loop `while time < duration - 20`, fuel-indexed. -/
def bassLoop (s : DrawStream) : ℕ → ℕ → MIDIFile → ℚ → ℕ × MIDIFile × ℚ
  | 0, i, m, t => (i, m, t)
  | fuel + 1, i, m, t =>
    if t < 300 - 20 then
      let (i, m, t) := bassBody s i m t
      bassLoop s fuel i m t
    else (i, m, t)

/-- The whole `generate_ambient()` composition: assembler setup (tempo and the
four program changes), then the five layer generators in source order, all
drawing from the single shared random source.  Returns the accumulated
`MIDIFile` (the content serialized to `ambient.mid`) and the final state of
the random source's cursor.  The fuel supplied to each fuel-indexed loop is
sufficient for every valid draw stream (proved below). -/
noncomputable def generate_ambient (s : DrawStream) (i : ℕ) : MIDIFile × ℕ :=
  let m := MIDIFile.mk0 4
  let m := m.addTempo 0 0 55
  let m := m.addProgramChange 0 0 0 89
  let m := m.addProgramChange 0 1 0 0
  let m := m.addProgramChange 0 2 0 8
  let m := m.addProgramChange 0 3 0 48
  let (i, m, _) := droneLoop s 9 i m ⟨0, 0⟩
  let (i, m, _) := melodyLoop s 100 i m ⟨8, "lydian", none⟩
  let (i, m, _) := sparkleLoop s 40 i m 20
  let (i, m) := swellLayer s i m
  let (i, m, _) := bassLoop s 12 i m 30
  (m, i)

/-- Range invariant of a note event: pitch and velocity in [0,127],
strictly positive duration, non-negative start time. -/
def InRange (e : NoteEvent) : Prop :=
  0 ≤ e.pitch ∧ e.pitch ≤ 127 ∧ 0 ≤ e.velocity ∧ e.velocity ≤ 127 ∧
  0 < e.duration ∧ 0 ≤ e.start

/-- Modelled from the spec: the claimed tonal-center formula of claim C4 /
spec section 4.3, `60 + round(5 * sin(2π * 4 * cursor/total_duration))`,
with `total_duration = 300`; to be compared with `melodyCenter`, the
formula the source actually computes. -/
noncomputable def melodyCenterSpec (time : ℚ) : ℤ :=
  60 + round ((5:ℝ) * Real.sin (2 * Real.pi * 4 * ((time : ℝ) / 300)))

/-- Modelled from the spec: the relation "`q` lies `k` scale-degree steps
above `p` within `scale`" used by claim C5. -/
def stepsAbove (scale : List ℤ) (p q : ℤ) (k : ℕ) : Prop :=
  ∃ j < scale.length, scale.getD j 0 = p ∧ scale.getD (j + k) 0 = q ∧
    j + k < scale.length

/-! ### Concrete draw streams used as test inputs -/

/-- Draw stream that always yields 0. -/
def zeroStream : DrawStream := fun _ => 0

/-- Draw stream that always yields 1/4. -/
def quarterStream : DrawStream := fun _ => 1/4

/-- Draw stream that always yields 1/2. -/
def halfStream : DrawStream := fun _ => 1/2

/-- Draw stream yielding 1/2 for the first two draws and 0 afterwards
(drives the melody body into the interval-pair gesture at the lowest
choice values). -/
def pairStream : DrawStream := fun n => if n ≤ 1 then 1/2 else 0

/-- Draw stream yielding 0 first and 1/2 afterwards (separates a run
started at cursor 0 from a run started at any later cursor). -/
def shiftStream : DrawStream := fun n => if n = 0 then 0 else 1/2

/-! ## Helper lemmas about the primitive draw operations -/

theorem getD_mem {α : Type} {l : List α} {n : ℕ} (h : n < l.length) (d : α) :
    l.getD n d ∈ l := by
  induction l generalizing n with
  | nil => simp at h
  | cons a t ih =>
    cases n with
    | zero => simp [List.getD]
    | succ k =>
      simp only [List.getD_cons_succ, List.mem_cons]
      exact Or.inr (ih (by simpa using h))

theorem randChoice_mem {α : Type} [Inhabited α] {l : List α} (hl : l ≠ [])
    {s : DrawStream} {i : ℕ} (h0 : 0 ≤ s i) (h1 : s i < 1) :
    (randChoice l s i).1 ∈ l := by
  have hlen : 0 < (l.length : ℚ) := by
    have := List.length_pos.mpr hl
    exact_mod_cast this
  have hx0 : (0 : ℤ) ≤ ⌊s i * l.length⌋ :=
    Int.floor_nonneg.mpr (mul_nonneg h0 (le_of_lt hlen))
  have hxlt : ⌊s i * (l.length : ℚ)⌋ < (l.length : ℤ) := by
    rw [Int.floor_lt]
    push_cast
    nlinarith
  have hlt : (⌊s i * (l.length : ℚ)⌋).toNat < l.length := by omega
  simp only [randChoice]
  exact getD_mem hlt _

theorem randUniform_bounds {a b : ℚ} (hab : a < b) {s : DrawStream} {i : ℕ}
    (h0 : 0 ≤ s i) (h1 : s i < 1) :
    a ≤ (randUniform a b s i).1 ∧ (randUniform a b s i).1 < b := by
  simp only [randUniform]
  constructor
  · nlinarith
  · nlinarith

theorem randRandint_bounds {a b : ℤ} (hab : a ≤ b) {s : DrawStream} {i : ℕ}
    (h0 : 0 ≤ s i) (h1 : s i < 1) :
    a ≤ (randRandint a b s i).1 ∧ (randRandint a b s i).1 ≤ b := by
  simp only [randRandint]
  have hcast : (a : ℚ) ≤ (b : ℚ) := by exact_mod_cast hab
  have h1' : (0:ℤ) ≤ ⌊s i * ((b:ℚ) - a + 1)⌋ :=
    Int.floor_nonneg.mpr (mul_nonneg h0 (by linarith))
  have h2' : ⌊s i * ((b:ℚ) - a + 1)⌋ < b - a + 1 := by
    rw [Int.floor_lt]
    push_cast
    nlinarith
  constructor
  · omega
  · omega

/-! ## Helper lemmas about scales and the tonal center -/

theorem scaleD_length {root : ℤ} {mode : String} (h : mode ∈ modeNames) :
    ((get_scale root mode).getD []).length = 7 := by
  simp only [modeNames, modes, List.map_cons, List.map_nil, List.mem_cons,
    List.not_mem_nil, or_false] at h
  rcases h with h | h | h | h <;> subst h <;> rfl

theorem scaleD_mem_bounds {root : ℤ} {mode : String} (h : mode ∈ modeNames) :
    ∀ x ∈ (get_scale root mode).getD [], root ≤ x ∧ x ≤ root + 11 := by
  simp only [modeNames, modes, List.map_cons, List.map_nil, List.mem_cons,
    List.not_mem_nil, or_false] at h
  rcases h with h | h | h | h <;> subst h <;>
    · intro x hx
      simp [get_scale, modes, List.lookup] at hx
      omega

theorem pyInt_bounds {x : ℝ} {c : ℤ} (hc : 0 ≤ c) (hlo : -(c:ℝ) ≤ x) (hhi : x ≤ c) :
    -c ≤ pyInt x ∧ pyInt x ≤ c := by
  unfold pyInt
  split
  · constructor
    · have : (0:ℤ) ≤ ⌊x⌋ := Int.floor_nonneg.mpr (by assumption)
      omega
    · calc ⌊x⌋ ≤ ⌊(c:ℝ)⌋ := Int.floor_le_floor hhi
        _ = c := Int.floor_intCast c
  · constructor
    · calc -c = ⌈(-(c:ℝ) : ℝ)⌉ := by rw [← Int.cast_neg, Int.ceil_intCast]
        _ ≤ ⌈x⌉ := Int.ceil_le_ceil hlo
    · have hx0 : x ≤ 0 := le_of_lt (lt_of_not_ge (by assumption))
      have : ⌈x⌉ ≤ ⌈(0:ℝ)⌉ := Int.ceil_le_ceil hx0
      simp at this
      omega

theorem melodyCenter_bounds (t : ℚ) :
    55 ≤ melodyCenter t ∧ melodyCenter t ≤ 65 := by
  unfold melodyCenter
  have hs := Real.neg_one_le_sin (((t : ℝ) / 300) * Real.pi * 4)
  have hs' := Real.sin_le_one (((t : ℝ) / 300) * Real.pi * 4)
  have := pyInt_bounds (x := Real.sin (((t : ℝ) / 300) * Real.pi * 4) * 5) (c := 5)
    (by norm_num) (by push_cast; nlinarith) (by push_cast; nlinarith)
  omega

/-! ## Static shape lemmas: each generation unit only appends note events
(all with the track/channel of the `addNote` calls in its source lines),
never touches tempos or program changes, and only advances the draw
cursor. -/

theorem droneBody_static (s : DrawStream) (i : ℕ) (m : MIDIFile) (st : DroneState) :
    (droneBody s i m st).2.1.tempos = m.tempos ∧
    (droneBody s i m st).2.1.programs = m.programs ∧
    (droneBody s i m st).2.1.numTracks = m.numTracks ∧
    i ≤ (droneBody s i m st).1 ∧
    (∃ tail, (droneBody s i m st).2.1.notes = m.notes ++ tail) ∧
    (∀ e ∈ (droneBody s i m st).2.1.notes,
      e ∈ m.notes ∨ (e.track = 0 ∧ e.channel = 0)) := by
  unfold droneBody randUniform randRandom MIDIFile.addNote
  dsimp only
  repeat' split
  all_goals try dsimp only
  all_goals refine ⟨rfl, rfl, rfl, by omega,
    ⟨_, by first
      | exact (List.append_nil _).symm
      | rfl
      | (simp only [List.append_assoc]; rfl)⟩, ?_⟩
  all_goals intro e he
  all_goals try simp at he
  all_goals try casesm* _ ∨ _
  all_goals first
    | exact Or.inl (by assumption)
    | (subst_vars; exact Or.inr ⟨rfl, rfl⟩)

theorem droneLoop_static (s : DrawStream) (fuel : ℕ) :
    ∀ (i : ℕ) (m : MIDIFile) (st : DroneState),
    (droneLoop s fuel i m st).2.1.tempos = m.tempos ∧
    (droneLoop s fuel i m st).2.1.programs = m.programs ∧
    (droneLoop s fuel i m st).2.1.numTracks = m.numTracks ∧
    i ≤ (droneLoop s fuel i m st).1 ∧
    (∃ tail, (droneLoop s fuel i m st).2.1.notes = m.notes ++ tail) ∧
    (∀ e ∈ (droneLoop s fuel i m st).2.1.notes,
      e ∈ m.notes ∨ (e.track = 0 ∧ e.channel = 0)) := by
  induction fuel with
  | zero =>
    intro i m st
    exact ⟨rfl, rfl, rfl, le_refl _, ⟨[], (List.append_nil _).symm⟩, fun e he => Or.inl he⟩
  | succ f ih =>
    intro i m st
    unfold droneLoop
    split
    · rcases hB : droneBody s i m st with ⟨i', m', st'⟩
      have B := droneBody_static s i m st
      rw [hB] at B
      dsimp only at B ⊢
      obtain ⟨Bt, Bp, Bn, Bi, ⟨tB, hTB⟩, hEB⟩ := B
      obtain ⟨Lt, Lp, Ln, Li, ⟨tL, hTL⟩, hEL⟩ := ih i' m' st'
      refine ⟨Lt.trans Bt, Lp.trans Bp, Ln.trans Bn, le_trans Bi Li,
        ⟨tB ++ tL, by rw [hTL, hTB, List.append_assoc]⟩, ?_⟩
      intro e he
      rcases hEL e he with h | h
      · exact hEB e h
      · exact Or.inr h
    · exact ⟨rfl, rfl, rfl, le_refl _, ⟨[], (List.append_nil _).symm⟩,
        fun e he => Or.inl he⟩

theorem gestureSingle_static (s : DrawStream) (i : ℕ) (m : MIDIFile) (t : ℚ)
    (scale : List ℤ) (ln : Option ℤ) :
    (gestureSingle s i m t scale ln).2.1.tempos = m.tempos ∧
    (gestureSingle s i m t scale ln).2.1.programs = m.programs ∧
    (gestureSingle s i m t scale ln).2.1.numTracks = m.numTracks ∧
    i ≤ (gestureSingle s i m t scale ln).1 ∧
    (∃ tail, (gestureSingle s i m t scale ln).2.1.notes = m.notes ++ tail) ∧
    (∀ e ∈ (gestureSingle s i m t scale ln).2.1.notes,
      e ∈ m.notes ∨ (e.track = 0 ∧ e.channel = 1)) := by
  unfold gestureSingle randRandom randUniform randRandint randChoice MIDIFile.addNote
  cases ln
  all_goals try dsimp only
  all_goals repeat' split
  all_goals try dsimp only
  all_goals refine ⟨rfl, rfl, rfl, by omega,
    ⟨_, by first
      | exact (List.append_nil _).symm
      | rfl
      | (simp only [List.append_assoc]; rfl)⟩, ?_⟩
  all_goals intro e he
  all_goals try simp at he
  all_goals try casesm* _ ∨ _
  all_goals first
    | exact Or.inl (by assumption)
    | (subst_vars; exact Or.inr ⟨rfl, rfl⟩)

theorem gesturePair_static (s : DrawStream) (i : ℕ) (m : MIDIFile) (t : ℚ)
    (scale : List ℤ) :
    (gesturePair s i m t scale).2.1.tempos = m.tempos ∧
    (gesturePair s i m t scale).2.1.programs = m.programs ∧
    (gesturePair s i m t scale).2.1.numTracks = m.numTracks ∧
    i ≤ (gesturePair s i m t scale).1 ∧
    (∃ tail, (gesturePair s i m t scale).2.1.notes = m.notes ++ tail) ∧
    (∀ e ∈ (gesturePair s i m t scale).2.1.notes,
      e ∈ m.notes ∨ (e.track = 0 ∧ e.channel = 1)) := by
  unfold gesturePair randRandint randChoice MIDIFile.addNote
  dsimp only
  refine ⟨rfl, rfl, rfl, by omega,
    ⟨_, by simp only [List.append_assoc]; rfl⟩, ?_⟩
  intro e he
  simp at he
  casesm* _ ∨ _
  all_goals first
    | exact Or.inl (by assumption)
    | (subst_vars; exact Or.inr ⟨rfl, rfl⟩)

theorem gestureDescend_static (s : DrawStream) (i : ℕ) (m : MIDIFile) (t : ℚ)
    (scale : List ℤ) :
    (gestureDescend s i m t scale).2.1.tempos = m.tempos ∧
    (gestureDescend s i m t scale).2.1.programs = m.programs ∧
    (gestureDescend s i m t scale).2.1.numTracks = m.numTracks ∧
    i ≤ (gestureDescend s i m t scale).1 ∧
    (∃ tail, (gestureDescend s i m t scale).2.1.notes = m.notes ++ tail) ∧
    (∀ e ∈ (gestureDescend s i m t scale).2.1.notes,
      e ∈ m.notes ∨ (e.track = 0 ∧ e.channel = 1)) := by
  unfold gestureDescend randChoice MIDIFile.addNote
  dsimp only
  repeat' split
  all_goals refine ⟨rfl, rfl, rfl, by omega,
    ⟨_, by simp only [List.append_assoc]; rfl⟩, ?_⟩
  all_goals intro e he
  all_goals try simp at he
  all_goals try casesm* _ ∨ _
  all_goals first
    | exact Or.inl (by assumption)
    | (subst_vars; exact Or.inr ⟨rfl, rfl⟩)

theorem gestureAscend_static (s : DrawStream) (i : ℕ) (m : MIDIFile) (t : ℚ)
    (scale : List ℤ) :
    (gestureAscend s i m t scale).2.1.tempos = m.tempos ∧
    (gestureAscend s i m t scale).2.1.programs = m.programs ∧
    (gestureAscend s i m t scale).2.1.numTracks = m.numTracks ∧
    i ≤ (gestureAscend s i m t scale).1 ∧
    (∃ tail, (gestureAscend s i m t scale).2.1.notes = m.notes ++ tail) ∧
    (∀ e ∈ (gestureAscend s i m t scale).2.1.notes,
      e ∈ m.notes ∨ (e.track = 0 ∧ e.channel = 1)) := by
  unfold gestureAscend randRandint MIDIFile.addNote
  dsimp only
  refine ⟨rfl, rfl, rfl, by omega,
    ⟨_, by simp only [List.append_assoc]; rfl⟩, ?_⟩
  intro e he
  simp at he
  casesm* _ ∨ _
  all_goals first
    | exact Or.inl (by assumption)
    | (subst_vars; exact Or.inr ⟨rfl, rfl⟩)

theorem melodyGap_idx (s : DrawStream) (i : ℕ) : (melodyGap s i).2 = i + 2 := by
  unfold melodyGap randRandom randUniform
  dsimp only
  split <;> rfl

theorem gestureDispatch_static (c : ℚ) (s : DrawStream) (i : ℕ) (m : MIDIFile)
    (t : ℚ) (scale : List ℤ) (ln : Option ℤ) :
    (gestureDispatch c s i m t scale ln).2.1.tempos = m.tempos ∧
    (gestureDispatch c s i m t scale ln).2.1.programs = m.programs ∧
    (gestureDispatch c s i m t scale ln).2.1.numTracks = m.numTracks ∧
    i ≤ (gestureDispatch c s i m t scale ln).1 ∧
    (∃ tail, (gestureDispatch c s i m t scale ln).2.1.notes = m.notes ++ tail) ∧
    (∀ e ∈ (gestureDispatch c s i m t scale ln).2.1.notes,
      e ∈ m.notes ∨ (e.track = 0 ∧ e.channel = 1)) := by
  unfold gestureDispatch
  split
  · exact gestureSingle_static s i m t scale ln
  · split
    · exact gesturePair_static s i m t scale
    · split
      · exact gestureDescend_static s i m t scale
      · exact gestureAscend_static s i m t scale

theorem melodyDG_static (c : ℚ) (s : DrawStream) (i0 i : ℕ) (m : MIDIFile)
    (t : ℚ) (scale : List ℤ) (ln : Option ℤ) (hi : i0 ≤ i) :
    (gestureDispatch c s i m t scale ln).2.1.tempos = m.tempos ∧
    (gestureDispatch c s i m t scale ln).2.1.programs = m.programs ∧
    (gestureDispatch c s i m t scale ln).2.1.numTracks = m.numTracks ∧
    i0 ≤ (melodyGap s (gestureDispatch c s i m t scale ln).1).2 ∧
    (∃ tail, (gestureDispatch c s i m t scale ln).2.1.notes = m.notes ++ tail) ∧
    (∀ e ∈ (gestureDispatch c s i m t scale ln).2.1.notes,
      e ∈ m.notes ∨ (e.track = 0 ∧ e.channel = 1)) := by
  obtain ⟨h1, h2, h3, h4, h5, h6⟩ := gestureDispatch_static c s i m t scale ln
  rw [melodyGap_idx]
  exact ⟨h1, h2, h3, by omega, h5, h6⟩

theorem melodyBody_static (s : DrawStream) (i : ℕ) (m : MIDIFile) (st : MelodyState) :
    (melodyBody s i m st).2.1.tempos = m.tempos ∧
    (melodyBody s i m st).2.1.programs = m.programs ∧
    (melodyBody s i m st).2.1.numTracks = m.numTracks ∧
    i ≤ (melodyBody s i m st).1 ∧
    (∃ tail, (melodyBody s i m st).2.1.notes = m.notes ++ tail) ∧
    (∀ e ∈ (melodyBody s i m st).2.1.notes,
      e ∈ m.notes ∨ (e.track = 0 ∧ e.channel = 1)) := by
  unfold melodyBody randRandom randChoice
  dsimp only
  split
  · exact melodyDG_static _ s i _ m st.time _ st.lastNote (by omega)
  · exact melodyDG_static _ s i _ m st.time _ st.lastNote (by omega)

theorem melodyLoop_static (s : DrawStream) (fuel : ℕ) :
    ∀ (i : ℕ) (m : MIDIFile) (st : MelodyState),
    (melodyLoop s fuel i m st).2.1.tempos = m.tempos ∧
    (melodyLoop s fuel i m st).2.1.programs = m.programs ∧
    (melodyLoop s fuel i m st).2.1.numTracks = m.numTracks ∧
    i ≤ (melodyLoop s fuel i m st).1 ∧
    (∃ tail, (melodyLoop s fuel i m st).2.1.notes = m.notes ++ tail) ∧
    (∀ e ∈ (melodyLoop s fuel i m st).2.1.notes,
      e ∈ m.notes ∨ (e.track = 0 ∧ e.channel = 1)) := by
  induction fuel with
  | zero =>
    intro i m st
    exact ⟨rfl, rfl, rfl, le_refl _, ⟨[], (List.append_nil _).symm⟩, fun e he => Or.inl he⟩
  | succ f ih =>
    intro i m st
    unfold melodyLoop
    split
    · rcases hB : melodyBody s i m st with ⟨i', m', st'⟩
      have B := melodyBody_static s i m st
      rw [hB] at B
      dsimp only at B ⊢
      obtain ⟨Bt, Bp, Bn, Bi, ⟨tB, hTB⟩, hEB⟩ := B
      obtain ⟨Lt, Lp, Ln, Li, ⟨tL, hTL⟩, hEL⟩ := ih i' m' st'
      refine ⟨Lt.trans Bt, Lp.trans Bp, Ln.trans Bn, le_trans Bi Li,
        ⟨tB ++ tL, by rw [hTL, hTB, List.append_assoc]⟩, ?_⟩
      intro e he
      rcases hEL e he with h | h
      · exact hEB e h
      · exact Or.inr h
    · exact ⟨rfl, rfl, rfl, le_refl _, ⟨[], (List.append_nil _).symm⟩,
        fun e he => Or.inl he⟩

theorem cascadeLoop_static (s : DrawStream) (root : ℤ) (t : ℚ) (vel : ℤ)
    (js : List ℕ) :
    ∀ (i : ℕ) (m : MIDIFile),
    (cascadeLoop s root t vel js i m).2.tempos = m.tempos ∧
    (cascadeLoop s root t vel js i m).2.programs = m.programs ∧
    (cascadeLoop s root t vel js i m).2.numTracks = m.numTracks ∧
    i ≤ (cascadeLoop s root t vel js i m).1 ∧
    (∃ tail, (cascadeLoop s root t vel js i m).2.notes = m.notes ++ tail) ∧
    (∀ e ∈ (cascadeLoop s root t vel js i m).2.notes,
      e ∈ m.notes ∨ (e.track = 0 ∧ e.channel = 2)) := by
  induction js with
  | nil =>
    intro i m
    exact ⟨rfl, rfl, rfl, le_refl _, ⟨[], (List.append_nil _).symm⟩, fun e he => Or.inl he⟩
  | cons j rest ih =>
    intro i m
    unfold cascadeLoop randChoice MIDIFile.addNote
    dsimp only
    obtain ⟨Lt, Lp, Ln, Li, ⟨tL, hTL⟩, hEL⟩ := ih (i + 1) _
    refine ⟨Lt, Lp, Ln, by omega, ⟨_, by rw [hTL, List.append_assoc]⟩, ?_⟩
    intro e he
    rcases hEL e he with h | h
    · rcases List.mem_append.mp h with h' | h'
      · exact Or.inl h'
      · rw [List.mem_singleton] at h'
        subst h'
        exact Or.inr ⟨rfl, rfl⟩
    · exact Or.inr h

theorem sparkleBody_static (s : DrawStream) (i : ℕ) (m : MIDIFile) (t : ℚ) :
    (sparkleBody s i m t).2.1.tempos = m.tempos ∧
    (sparkleBody s i m t).2.1.programs = m.programs ∧
    (sparkleBody s i m t).2.1.numTracks = m.numTracks ∧
    i ≤ (sparkleBody s i m t).1 ∧
    (∃ tail, (sparkleBody s i m t).2.1.notes = m.notes ++ tail) ∧
    (∀ e ∈ (sparkleBody s i m t).2.1.notes,
      e ∈ m.notes ∨ (e.track = 0 ∧ e.channel = 2)) := by
  unfold sparkleBody randRandom randChoice randRandint randUniform MIDIFile.addNote
  dsimp only
  repeat' split
  all_goals try dsimp only
  · -- sparkle fired and cascade fired
    obtain ⟨Lt, Lp, Ln, Li, ⟨tL, hTL⟩, hEL⟩ :=
      cascadeLoop_static s _ t _ (List.range _) _ _
    refine ⟨Lt, Lp, Ln, by omega, ⟨_, by rw [hTL]; rw [List.append_assoc]⟩, ?_⟩
    intro e he
    rcases hEL e he with h | h
    · rcases List.mem_append.mp h with h' | h'
      · exact Or.inl h'
      · rw [List.mem_singleton] at h'
        subst h'
        exact Or.inr ⟨rfl, rfl⟩
    · exact Or.inr h
  · -- sparkle fired, no cascade
    refine ⟨rfl, rfl, rfl, by omega, ⟨_, rfl⟩, ?_⟩
    intro e he
    rcases List.mem_append.mp he with h | h
    · exact Or.inl h
    · rw [List.mem_singleton] at h
      subst h
      exact Or.inr ⟨rfl, rfl⟩
  · -- no sparkle this pass
    exact ⟨rfl, rfl, rfl, by omega, ⟨[], (List.append_nil _).symm⟩, fun e he => Or.inl he⟩

theorem sparkleLoop_static (s : DrawStream) (fuel : ℕ) :
    ∀ (i : ℕ) (m : MIDIFile) (t : ℚ),
    (sparkleLoop s fuel i m t).2.1.tempos = m.tempos ∧
    (sparkleLoop s fuel i m t).2.1.programs = m.programs ∧
    (sparkleLoop s fuel i m t).2.1.numTracks = m.numTracks ∧
    i ≤ (sparkleLoop s fuel i m t).1 ∧
    (∃ tail, (sparkleLoop s fuel i m t).2.1.notes = m.notes ++ tail) ∧
    (∀ e ∈ (sparkleLoop s fuel i m t).2.1.notes,
      e ∈ m.notes ∨ (e.track = 0 ∧ e.channel = 2)) := by
  induction fuel with
  | zero =>
    intro i m t
    exact ⟨rfl, rfl, rfl, le_refl _, ⟨[], (List.append_nil _).symm⟩, fun e he => Or.inl he⟩
  | succ f ih =>
    intro i m t
    unfold sparkleLoop
    split
    · rcases hB : sparkleBody s i m t with ⟨i', m', t'⟩
      have B := sparkleBody_static s i m t
      rw [hB] at B
      dsimp only at B ⊢
      obtain ⟨Bt, Bp, Bn, Bi, ⟨tB, hTB⟩, hEB⟩ := B
      obtain ⟨Lt, Lp, Ln, Li, ⟨tL, hTL⟩, hEL⟩ := ih i' m' t'
      refine ⟨Lt.trans Bt, Lp.trans Bp, Ln.trans Bn, le_trans Bi Li,
        ⟨tB ++ tL, by rw [hTL, hTB, List.append_assoc]⟩, ?_⟩
      intro e he
      rcases hEL e he with h | h
      · exact hEB e h
      · exact Or.inr h
    · exact ⟨rfl, rfl, rfl, le_refl _, ⟨[], (List.append_nil _).symm⟩,
        fun e he => Or.inl he⟩

theorem swellAt_static (s : DrawStream) (t : ℚ) (i : ℕ) (m : MIDIFile) :
    (swellAt s t i m).2.tempos = m.tempos ∧
    (swellAt s t i m).2.programs = m.programs ∧
    (swellAt s t i m).2.numTracks = m.numTracks ∧
    i ≤ (swellAt s t i m).1 ∧
    (∃ tail, (swellAt s t i m).2.notes = m.notes ++ tail) ∧
    (∀ e ∈ (swellAt s t i m).2.notes,
      e ∈ m.notes ∨ (e.track = 0 ∧ e.channel = 3)) := by
  unfold swellAt randRandom randChoice MIDIFile.addNote
  dsimp only
  repeat' split
  all_goals try dsimp only
  all_goals refine ⟨rfl, rfl, rfl, by omega,
    ⟨_, by first
      | exact (List.append_nil _).symm
      | rfl
      | (simp only [List.append_assoc]; rfl)⟩, ?_⟩
  all_goals intro e he
  all_goals try simp at he
  all_goals try casesm* _ ∨ _
  all_goals first
    | exact Or.inl (by assumption)
    | (subst_vars; exact Or.inr ⟨rfl, rfl⟩)

theorem swellLayer_static (s : DrawStream) (i : ℕ) (m : MIDIFile) :
    (swellLayer s i m).2.tempos = m.tempos ∧
    (swellLayer s i m).2.programs = m.programs ∧
    (swellLayer s i m).2.numTracks = m.numTracks ∧
    i ≤ (swellLayer s i m).1 ∧
    (∃ tail, (swellLayer s i m).2.notes = m.notes ++ tail) ∧
    (∀ e ∈ (swellLayer s i m).2.notes,
      e ∈ m.notes ∨ (e.track = 0 ∧ e.channel = 3)) := by
  rcases h1 : swellAt s 45 i m with ⟨i1, m1⟩
  have A1 := swellAt_static s 45 i m
  rw [h1] at A1
  rcases h2 : swellAt s 95 i1 m1 with ⟨i2, m2⟩
  have A2 := swellAt_static s 95 i1 m1
  rw [h2] at A2
  rcases h3 : swellAt s 150 i2 m2 with ⟨i3, m3⟩
  have A3 := swellAt_static s 150 i2 m2
  rw [h3] at A3
  rcases h4 : swellAt s 210 i3 m3 with ⟨i4, m4⟩
  have A4 := swellAt_static s 210 i3 m3
  rw [h4] at A4
  rcases h5 : swellAt s 270 i4 m4 with ⟨i5, m5⟩
  have A5 := swellAt_static s 270 i4 m4
  rw [h5] at A5
  unfold swellLayer
  rw [h1]
  dsimp only
  rw [h2]
  dsimp only
  rw [h3]
  dsimp only
  rw [h4]
  dsimp only
  rw [h5]
  dsimp only at A1 A2 A3 A4 A5 ⊢
  obtain ⟨t1, p1, n1, li1, ⟨u1, hu1⟩, he1⟩ := A1
  obtain ⟨t2, p2, n2, li2, ⟨u2, hu2⟩, he2⟩ := A2
  obtain ⟨t3, p3, n3, li3, ⟨u3, hu3⟩, he3⟩ := A3
  obtain ⟨t4, p4, n4, li4, ⟨u4, hu4⟩, he4⟩ := A4
  obtain ⟨t5, p5, n5, li5, ⟨u5, hu5⟩, he5⟩ := A5
  refine ⟨by rw [t5, t4, t3, t2, t1], by rw [p5, p4, p3, p2, p1],
    by rw [n5, n4, n3, n2, n1], by omega,
    ⟨u1 ++ (u2 ++ (u3 ++ (u4 ++ u5))), by
      rw [hu5, hu4, hu3, hu2, hu1]
      simp only [List.append_assoc]⟩, ?_⟩
  intro e he
  rcases he5 e he with h | h
  · rcases he4 e h with h' | h'
    · rcases he3 e h' with h'' | h''
      · rcases he2 e h'' with h3' | h3'
        · exact he1 e h3'
        · exact Or.inr h3'
      · exact Or.inr h''
    · exact Or.inr h'
  · exact Or.inr h

theorem bassBody_static (s : DrawStream) (i : ℕ) (m : MIDIFile) (t : ℚ) :
    (bassBody s i m t).2.1.tempos = m.tempos ∧
    (bassBody s i m t).2.1.programs = m.programs ∧
    (bassBody s i m t).2.1.numTracks = m.numTracks ∧
    i ≤ (bassBody s i m t).1 ∧
    (∃ tail, (bassBody s i m t).2.1.notes = m.notes ++ tail) ∧
    (∀ e ∈ (bassBody s i m t).2.1.notes,
      e ∈ m.notes ∨ (e.track = 0 ∧ e.channel = 0)) := by
  unfold bassBody randRandom randChoice randUniform MIDIFile.addNote
  dsimp only
  repeat' split
  all_goals try dsimp only
  all_goals refine ⟨rfl, rfl, rfl, by omega,
    ⟨_, by first
      | exact (List.append_nil _).symm
      | rfl
      | (simp only [List.append_assoc]; rfl)⟩, ?_⟩
  all_goals intro e he
  all_goals try simp at he
  all_goals try casesm* _ ∨ _
  all_goals first
    | exact Or.inl (by assumption)
    | (subst_vars; exact Or.inr ⟨rfl, rfl⟩)

theorem bassLoop_static (s : DrawStream) (fuel : ℕ) :
    ∀ (i : ℕ) (m : MIDIFile) (t : ℚ),
    (bassLoop s fuel i m t).2.1.tempos = m.tempos ∧
    (bassLoop s fuel i m t).2.1.programs = m.programs ∧
    (bassLoop s fuel i m t).2.1.numTracks = m.numTracks ∧
    i ≤ (bassLoop s fuel i m t).1 ∧
    (∃ tail, (bassLoop s fuel i m t).2.1.notes = m.notes ++ tail) ∧
    (∀ e ∈ (bassLoop s fuel i m t).2.1.notes,
      e ∈ m.notes ∨ (e.track = 0 ∧ e.channel = 0)) := by
  induction fuel with
  | zero =>
    intro i m t
    exact ⟨rfl, rfl, rfl, le_refl _, ⟨[], (List.append_nil _).symm⟩, fun e he => Or.inl he⟩
  | succ f ih =>
    intro i m t
    unfold bassLoop
    split
    · rcases hB : bassBody s i m t with ⟨i', m', t'⟩
      have B := bassBody_static s i m t
      rw [hB] at B
      dsimp only at B ⊢
      obtain ⟨Bt, Bp, Bn, Bi, ⟨tB, hTB⟩, hEB⟩ := B
      obtain ⟨Lt, Lp, Ln, Li, ⟨tL, hTL⟩, hEL⟩ := ih i' m' t'
      refine ⟨Lt.trans Bt, Lp.trans Bp, Ln.trans Bn, le_trans Bi Li,
        ⟨tB ++ tL, by rw [hTL, hTB, List.append_assoc]⟩, ?_⟩
      intro e he
      rcases hEL e he with h | h
      · exact hEB e h
      · exact Or.inr h
    · exact ⟨rfl, rfl, rfl, le_refl _, ⟨[], (List.append_nil _).symm⟩,
        fun e he => Or.inl he⟩

/-! ## Time-advance lemmas: each loop body strictly advances its cursor
within the documented gap range, and each loop reaches its terminal
condition with the fuel supplied by `generate_ambient` -/
theorem randUniform_add_bounds {s : DrawStream} (hv : ValidStream s)
    (a b t : ℚ) (hab : a < b) (j : ℕ) :
    t + a ≤ t + (randUniform a b s j).1 ∧ t + (randUniform a b s j).1 < t + b := by
  obtain ⟨h0, h1⟩ := hv j
  unfold randUniform
  dsimp only
  constructor <;> nlinarith

theorem droneBody_time {s : DrawStream} (hv : ValidStream s) (i : ℕ)
    (m : MIDIFile) (st : DroneState) :
    st.time + 35 ≤ (droneBody s i m st).2.2.time ∧
    (droneBody s i m st).2.2.time ≤ st.time + 45 := by
  obtain ⟨h0, h1⟩ := hv i
  unfold droneBody randUniform randRandom
  dsimp only
  constructor <;> nlinarith

theorem melodyGap_bounds {s : DrawStream} (hv : ValidStream s) (i : ℕ) :
    (3 ≤ (melodyGap s i).1 ∧ (melodyGap s i).1 < 9) ∨
    (12 ≤ (melodyGap s i).1 ∧ (melodyGap s i).1 < 20) := by
  obtain ⟨h0, h1⟩ := hv (i + 1)
  unfold melodyGap randRandom randUniform
  dsimp only
  split <;> dsimp only
  · right
    constructor <;> nlinarith
  · left
    constructor <;> nlinarith

theorem melodyGap_add_bounds {s : DrawStream} (hv : ValidStream s) (t : ℚ) (j : ℕ) :
    (t + 3 ≤ t + (melodyGap s j).1 ∧ t + (melodyGap s j).1 < t + 9) ∨
    (t + 12 ≤ t + (melodyGap s j).1 ∧ t + (melodyGap s j).1 < t + 20) := by
  rcases melodyGap_bounds hv j with ⟨g1, g2⟩ | ⟨g1, g2⟩
  · exact Or.inl ⟨by linarith, by linarith⟩
  · exact Or.inr ⟨by linarith, by linarith⟩

theorem melodyBody_time {s : DrawStream} (hv : ValidStream s) (i : ℕ)
    (m : MIDIFile) (st : MelodyState) :
    (st.time + 3 ≤ (melodyBody s i m st).2.2.time ∧
      (melodyBody s i m st).2.2.time < st.time + 9) ∨
    (st.time + 12 ≤ (melodyBody s i m st).2.2.time ∧
      (melodyBody s i m st).2.2.time < st.time + 20) := by
  unfold melodyBody
  dsimp only
  exact melodyGap_add_bounds hv st.time _

theorem sparkleBody_time {s : DrawStream} (hv : ValidStream s) (i : ℕ)
    (m : MIDIFile) (t : ℚ) :
    t + 8 ≤ (sparkleBody s i m t).2.2 ∧ (sparkleBody s i m t).2.2 < t + 18 := by
  unfold sparkleBody
  dsimp only
  exact randUniform_add_bounds hv 8 18 t (by norm_num) _

theorem bassBody_time {s : DrawStream} (hv : ValidStream s) (i : ℕ)
    (m : MIDIFile) (t : ℚ) :
    t + 25 ≤ (bassBody s i m t).2.2 ∧ (bassBody s i m t).2.2 < t + 45 := by
  unfold bassBody
  dsimp only
  exact randUniform_add_bounds hv 25 45 t (by norm_num) _



theorem droneLoop_time {s : DrawStream} (hv : ValidStream s) :
    ∀ (f : ℕ) (i : ℕ) (m : MIDIFile) (st : DroneState),
    min 300 (st.time + 35 * f) ≤ (droneLoop s f i m st).2.2.time := by
  intro f
  induction f with
  | zero =>
    intro i m st
    have he : (droneLoop s 0 i m st).2.2.time = st.time := rfl
    rw [he]
    refine le_trans (min_le_right _ _) (le_of_eq ?_)
    push_cast
    ring
  | succ f ih =>
    intro i m st
    unfold droneLoop
    split
    · rcases hB : droneBody s i m st with ⟨i', m', st'⟩
      have T := droneBody_time hv i m st
      rw [hB] at T
      dsimp only at T ⊢
      refine le_trans ?_ (ih i' m' st')
      have : st.time + 35 * ((f : ℚ) + 1) ≤ st'.time + 35 * f := by
        push_cast
        linarith [T.1]
      refine le_trans ?_ (min_le_min (le_refl 300) this)
      apply le_of_eq
      congr 1
      push_cast
      ring
    · exact le_trans (min_le_left _ _) (by linarith [le_of_not_lt (by assumption : ¬ st.time < 300)])



theorem melodyLoop_time {s : DrawStream} (hv : ValidStream s) :
    ∀ (f : ℕ) (i : ℕ) (m : MIDIFile) (st : MelodyState),
    min 290 (st.time + 3 * f) ≤ (melodyLoop s f i m st).2.2.time := by
  intro f
  induction f with
  | zero =>
    intro i m st
    have he : (melodyLoop s 0 i m st).2.2.time = st.time := rfl
    rw [he]
    refine le_trans (min_le_right _ _) (le_of_eq ?_)
    push_cast
    ring
  | succ f ih =>
    intro i m st
    unfold melodyLoop
    split
    · rcases hB : melodyBody s i m st with ⟨i', m', st'⟩
      have T := melodyBody_time hv i m st
      rw [hB] at T
      dsimp only at T ⊢
      have hstep : st.time + 3 ≤ st'.time := by
        rcases T with ⟨h, -⟩ | ⟨h, -⟩ <;> linarith
      refine le_trans ?_ (ih i' m' st')
      have : st.time + 3 * ((f : ℚ) + 1) ≤ st'.time + 3 * f := by
        push_cast
        linarith
      refine le_trans ?_ (min_le_min (le_refl 290) this)
      apply le_of_eq
      congr 1
      push_cast
      ring
    · exact le_trans (min_le_left _ _)
        (by linarith [le_of_not_lt (by assumption : ¬ st.time < 300 - 10)])

theorem sparkleLoop_time {s : DrawStream} (hv : ValidStream s) :
    ∀ (f : ℕ) (i : ℕ) (m : MIDIFile) (t : ℚ),
    min 295 (t + 8 * f) ≤ (sparkleLoop s f i m t).2.2 := by
  intro f
  induction f with
  | zero =>
    intro i m t
    have he : (sparkleLoop s 0 i m t).2.2 = t := rfl
    rw [he]
    refine le_trans (min_le_right _ _) (le_of_eq ?_)
    push_cast
    ring
  | succ f ih =>
    intro i m t
    unfold sparkleLoop
    split
    · rcases hB : sparkleBody s i m t with ⟨i', m', t'⟩
      have T := sparkleBody_time hv i m t
      rw [hB] at T
      dsimp only at T ⊢
      refine le_trans ?_ (ih i' m' t')
      have : t + 8 * ((f : ℚ) + 1) ≤ t' + 8 * f := by
        push_cast
        linarith [T.1]
      refine le_trans ?_ (min_le_min (le_refl 295) this)
      apply le_of_eq
      congr 1
      push_cast
      ring
    · exact le_trans (min_le_left _ _)
        (by linarith [le_of_not_lt (by assumption : ¬ t < 300 - 5)])

theorem bassLoop_time {s : DrawStream} (hv : ValidStream s) :
    ∀ (f : ℕ) (i : ℕ) (m : MIDIFile) (t : ℚ),
    min 280 (t + 25 * f) ≤ (bassLoop s f i m t).2.2 := by
  intro f
  induction f with
  | zero =>
    intro i m t
    have he : (bassLoop s 0 i m t).2.2 = t := rfl
    rw [he]
    refine le_trans (min_le_right _ _) (le_of_eq ?_)
    push_cast
    ring
  | succ f ih =>
    intro i m t
    unfold bassLoop
    split
    · rcases hB : bassBody s i m t with ⟨i', m', t'⟩
      have T := bassBody_time hv i m t
      rw [hB] at T
      dsimp only at T ⊢
      refine le_trans ?_ (ih i' m' t')
      have : t + 25 * ((f : ℚ) + 1) ≤ t' + 25 * f := by
        push_cast
        linarith [T.1]
      refine le_trans ?_ (min_le_min (le_refl 280) this)
      apply le_of_eq
      congr 1
      push_cast
      ring
    · exact le_trans (min_le_left _ _)
        (by linarith [le_of_not_lt (by assumption : ¬ t < 300 - 20)])

/-! ## Event-range lemmas: every emitted note event satisfies the range
invariant, with layer-specific extra facts (drone durations at least 27,
melody gestures confined to the current scale) -/

theorem droneBody_range {s : DrawStream} (hv : ValidStream s) (i : ℕ)
    (m : MIDIFile) (st : DroneState) (ht : 0 ≤ st.time) :
    ∀ e ∈ (droneBody s i m st).2.1.notes,
      e ∈ m.notes ∨ (InRange e ∧ 27 ≤ e.duration) := by
  obtain ⟨h0, h1⟩ := hv i
  have hroot : 45 ≤ droneRoots.getD (st.rootIdx % droneRoots.length) 0 ∧
      droneRoots.getD (st.rootIdx % droneRoots.length) 0 ≤ 55 := by
    have hlt : st.rootIdx % droneRoots.length < droneRoots.length := by
      apply Nat.mod_lt
      simp [droneRoots]
    have := getD_mem hlt (0 : ℤ)
    revert this
    simp [droneRoots]
    omega
  simp only [List.getD_eq_getElem?_getD] at hroot
  unfold droneBody randUniform randRandom MIDIFile.addNote
  dsimp only
  repeat' split
  all_goals try dsimp only
  all_goals intro e he
  all_goals try simp at he
  all_goals try casesm* _ ∨ _
  all_goals first
    | exact Or.inl (by assumption)
    | (subst_vars
       refine Or.inr ⟨⟨?_, ?_, ?_, ?_, ?_, ?_⟩, ?_⟩ <;>
         simp only [InRange, List.getD_eq_getElem?_getD] <;>
         first | omega | linarith | nlinarith)

theorem gestureSingle_spec {s : DrawStream} (hv : ValidStream s) (i : ℕ)
    (m : MIDIFile) (t : ℚ) (scale : List ℤ) (ln : Option ℤ)
    (hlen : scale.length = 7) :
    ∃ note vel dur,
      gestureSingle s i m t scale ln =
        ((gestureSingle s i m t scale ln).1, m.addNote 0 1 note t dur vel, note) ∧
      note ∈ scale ∧ 38 ≤ vel ∧ vel ≤ 58 ∧ 5/2 ≤ dur ∧ dur < 6 := by
  have hne : scale ≠ [] := by
    intro h
    rw [h] at hlen
    simp at hlen
  unfold gestureSingle randRandom randUniform randRandint randChoice
  cases ln
  all_goals try dsimp only
  all_goals repeat' split
  all_goals try dsimp only
  all_goals refine ⟨_, _, _, rfl, ?_, ?_, ?_, ?_, ?_⟩
  all_goals first
    | (apply getD_mem
       simp only [hlen]
       omega)
    | exact randChoice_mem hne (hv _).1 (hv _).2
    | exact (randRandint_bounds (by norm_num) (hv _).1 (hv _).2).1
    | exact (randRandint_bounds (by norm_num) (hv _).1 (hv _).2).2
    | exact (randUniform_bounds (by norm_num) (hv _).1 (hv _).2).1
    | exact (randUniform_bounds (by norm_num) (hv _).1 (hv _).2).2

theorem gesturePair_spec {s : DrawStream} (hv : ValidStream s) (i : ℕ)
    (m : MIDIFile) (t : ℚ) (scale : List ℤ) (hlen : scale.length = 7) :
    ∃ note1 interval vel,
      gesturePair s i m t scale =
        ((gesturePair s i m t scale).1,
          (m.addNote 0 1 note1 t 4 vel).addNote 0 1 (note1 + interval)
            (t + 3/10) (7/2) (vel - 8), note1) ∧
      note1 ∈ scale ∧ interval ∈ ([2, 4, 5, 7] : List ℤ) ∧
      35 ≤ vel ∧ vel ≤ 50 := by
  have hne : scale ≠ [] := by
    intro h
    rw [h] at hlen
    simp at hlen
  unfold gesturePair randRandint randChoice
  dsimp only
  refine ⟨_, _, _, rfl, ?_, ?_, ?_, ?_⟩
  · exact randChoice_mem hne (hv _).1 (hv _).2
  · exact randChoice_mem (by simp) (hv _).1 (hv _).2
  · exact (randRandint_bounds (by norm_num) (hv _).1 (hv _).2).1
  · exact (randRandint_bounds (by norm_num) (hv _).1 (hv _).2).2

theorem gestureDescend_spec {s : DrawStream} (hv : ValidStream s) (i : ℕ)
    (m : MIDIFile) (t : ℚ) (scale : List ℤ) (hlen : scale.length = 7) :
    ∃ n0 n1 n2,
      gestureDescend s i m t scale =
        ((gestureDescend s i m t scale).1,
          ((m.addNote 0 1 n0 t 2 50).addNote 0 1 n1 (t + 6/5) 2 42).addNote
            0 1 n2 (t + 12/5) 2 34, n2) ∧
      n0 ∈ scale ∧ n1 ∈ scale ∧ n2 ∈ scale := by
  unfold gestureDescend randChoice
  dsimp only
  repeat' split
  all_goals try dsimp only
  all_goals refine ⟨_, _, _, rfl, ?_, ?_, ?_⟩
  all_goals first
    | (apply getD_mem
       have hidx := List.indexOf_lt_length.mpr (by assumption :
         (List.drop 3 scale).getD
           ⌊s i * ((List.drop 3 scale).length : ℚ)⌋.toNat default ∈ scale)
       simp only [hlen] at hidx ⊢
       omega)
    | (apply getD_mem
       simp only [hlen]
       omega)

theorem gestureAscend_spec {s : DrawStream} (hv : ValidStream s) (i : ℕ)
    (m : MIDIFile) (t : ℚ) (scale : List ℤ) (hlen : scale.length = 7) :
    ∃ n0 n1 n2 n3,
      gestureAscend s i m t scale =
        ((gestureAscend s i m t scale).1,
          (((m.addNote 0 1 n0 t (5/2) 35).addNote 0 1 n1 (t + 4/5) (5/2)
            40).addNote 0 1 n2 (t + 8/5) (5/2) 45).addNote 0 1 n3
            (t + 12/5) (5/2) 50, n3) ∧
      n0 ∈ scale ∧ n1 ∈ scale ∧ n2 ∈ scale ∧ n3 ∈ scale := by
  unfold gestureAscend randRandint
  dsimp only
  refine ⟨_, _, _, _, rfl, ?_, ?_, ?_, ?_⟩
  all_goals
    apply getD_mem
    simp only [hlen]
    omega

theorem gestureDispatch_range {s : DrawStream} (hv : ValidStream s) (c : ℚ)
    (i : ℕ) (m : MIDIFile) (t : ℚ) (scale : List ℤ) (ln : Option ℤ)
    (hlen : scale.length = 7) (hsc : ∀ x ∈ scale, 0 ≤ x ∧ x ≤ 120)
    (ht : 0 ≤ t) :
    ∀ e ∈ (gestureDispatch c s i m t scale ln).2.1.notes,
      e ∈ m.notes ∨ (InRange e ∧ e.start + e.duration ≤ t + 6) := by
  unfold gestureDispatch
  split
  · obtain ⟨note, vel, dur, heq, hmem, h1, h2, h3, h4⟩ :=
      gestureSingle_spec hv i m t scale ln hlen
    rw [heq]
    dsimp only [MIDIFile.addNote]
    intro e he
    rcases List.mem_append.mp he with h | h
    · exact Or.inl h
    · rw [List.mem_singleton] at h
      subst h
      obtain ⟨hp1, hp2⟩ := hsc note hmem
      unfold InRange
      dsimp only
      exact Or.inr ⟨⟨by omega, by omega, by omega, by omega, by linarith, ht⟩,
        by linarith⟩
  · split
    · obtain ⟨n1, iv, vel, heq, hmem, hiv, h1, h2⟩ :=
        gesturePair_spec hv i m t scale hlen
      rw [heq]
      dsimp only [MIDIFile.addNote]
      intro e he
      simp only [List.append_assoc, List.mem_append, List.mem_singleton] at he
      obtain ⟨hp1, hp2⟩ := hsc n1 hmem
      have hivb : 2 ≤ iv ∧ iv ≤ 7 := by
        simp at hiv
        rcases hiv with h | h | h | h <;> omega
      unfold InRange
      rcases he with h | h | h
      · exact Or.inl h
      · subst h
        dsimp only
        exact Or.inr ⟨⟨by omega, by omega, by omega, by omega, by norm_num, ht⟩,
          by linarith⟩
      · subst h
        dsimp only
        exact Or.inr ⟨⟨by omega, by omega, by omega, by omega, by norm_num,
          by linarith⟩, by linarith⟩
    · split
      · obtain ⟨n0, n1, n2, heq, hm0, hm1, hm2⟩ :=
          gestureDescend_spec hv i m t scale hlen
        rw [heq]
        dsimp only [MIDIFile.addNote]
        intro e he
        simp only [List.append_assoc, List.mem_append, List.mem_singleton] at he
        obtain ⟨h00, h01⟩ := hsc n0 hm0
        obtain ⟨h10, h11⟩ := hsc n1 hm1
        obtain ⟨h20, h21⟩ := hsc n2 hm2
        unfold InRange
        rcases he with h | h | h | h
        · exact Or.inl h
        all_goals subst h
        all_goals dsimp only
        all_goals exact Or.inr ⟨⟨by omega, by omega, by omega, by omega,
          by norm_num, by linarith⟩, by linarith⟩
      · obtain ⟨n0, n1, n2, n3, heq, hm0, hm1, hm2, hm3⟩ :=
          gestureAscend_spec hv i m t scale hlen
        rw [heq]
        dsimp only [MIDIFile.addNote]
        intro e he
        simp only [List.append_assoc, List.mem_append, List.mem_singleton] at he
        obtain ⟨h00, h01⟩ := hsc n0 hm0
        obtain ⟨h10, h11⟩ := hsc n1 hm1
        obtain ⟨h20, h21⟩ := hsc n2 hm2
        obtain ⟨h30, h31⟩ := hsc n3 hm3
        unfold InRange
        rcases he with h | h | h | h | h
        · exact Or.inl h
        all_goals subst h
        all_goals dsimp only
        all_goals exact Or.inr ⟨⟨by omega, by omega, by omega, by omega,
          by norm_num, by linarith⟩, by linarith⟩



theorem scaleD_sc {root : ℤ} {mode : String} (hmode : mode ∈ modeNames)
    (h55 : 55 ≤ root) (h65 : root ≤ 65) :
    ∀ x ∈ (get_scale root mode).getD [], 0 ≤ x ∧ x ≤ 120 := by
  intro x hx
  obtain ⟨hl, hr⟩ := scaleD_mem_bounds hmode x hx
  omega

theorem melodyBody_mode {s : DrawStream} (hv : ValidStream s) (i : ℕ)
    (m : MIDIFile) (st : MelodyState) (hmode : st.mode ∈ modeNames) :
    (melodyBody s i m st).2.2.mode ∈ modeNames := by
  unfold melodyBody randRandom
  dsimp only
  split
  · exact randChoice_mem (by simp [modeNames, modes]) (hv _).1 (hv _).2
  · exact hmode

theorem melodyBody_range {s : DrawStream} (hv : ValidStream s) (i : ℕ)
    (m : MIDIFile) (st : MelodyState) (ht : 0 ≤ st.time)
    (hmode : st.mode ∈ modeNames) :
    ∀ e ∈ (melodyBody s i m st).2.1.notes,
      e ∈ m.notes ∨ (InRange e ∧ e.start + e.duration ≤ st.time + 6) := by
  obtain ⟨hc1, hc2⟩ := melodyCenter_bounds st.time
  unfold melodyBody randRandom
  dsimp only
  split
  · refine gestureDispatch_range hv _ _ m st.time _ st.lastNote
      (scaleD_length ?_) (scaleD_sc ?_ hc1 hc2) ht
    all_goals exact randChoice_mem (by simp [modeNames, modes]) (hv _).1 (hv _).2
  · exact gestureDispatch_range hv _ _ m st.time _ st.lastNote
      (scaleD_length hmode) (scaleD_sc hmode hc1 hc2) ht

theorem melodyLoop_range {s : DrawStream} (hv : ValidStream s) :
    ∀ (f i : ℕ) (m : MIDIFile) (st : MelodyState), 0 ≤ st.time →
    st.mode ∈ modeNames →
    ∀ e ∈ (melodyLoop s f i m st).2.1.notes,
      e ∈ m.notes ∨ (InRange e ∧ e.start + e.duration < 296) := by
  intro f
  induction f with
  | zero =>
    intro i m st ht hmode e he
    exact Or.inl he
  | succ f ih =>
    intro i m st ht hmode
    unfold melodyLoop
    split
    · rcases hB : melodyBody s i m st with ⟨i', m', st'⟩
      have hR := melodyBody_range hv i m st ht hmode
      have hM := melodyBody_mode hv i m st hmode
      have hT := melodyBody_time hv i m st
      rw [hB] at hR hM hT
      dsimp only at hR hM hT ⊢
      have ht' : 0 ≤ st'.time := by
        rcases hT with ⟨h1, -⟩ | ⟨h1, -⟩ <;> linarith
      intro e he
      rcases ih i' m' st' ht' hM e he with h | h
      · rcases hR e h with h' | ⟨h1, h2⟩
        · exact Or.inl h'
        · refine Or.inr ⟨h1, ?_⟩
          have hg : st.time < 300 - 10 := by assumption
          linarith
      · exact Or.inr h
    · intro e he
      exact Or.inl he

theorem droneLoop_range {s : DrawStream} (hv : ValidStream s) :
    ∀ (f i : ℕ) (m : MIDIFile) (st : DroneState), 0 ≤ st.time →
    ∀ e ∈ (droneLoop s f i m st).2.1.notes,
      e ∈ m.notes ∨ (InRange e ∧ 27 ≤ e.duration) := by
  intro f
  induction f with
  | zero =>
    intro i m st ht e he
    exact Or.inl he
  | succ f ih =>
    intro i m st ht
    unfold droneLoop
    split
    · rcases hB : droneBody s i m st with ⟨i', m', st'⟩
      have hR := droneBody_range hv i m st ht
      have hT := droneBody_time hv i m st
      rw [hB] at hR hT
      dsimp only at hR hT ⊢
      have ht' : 0 ≤ st'.time := by linarith [hT.1]
      intro e he
      rcases ih i' m' st' ht' e he with h | h
      · exact hR e h
      · exact Or.inr h
    · intro e he
      exact Or.inl he



theorem cascadeLoop_range {s : DrawStream} (hv : ValidStream s) (root : ℤ)
    (t : ℚ) (vel : ℤ) (hroot1 : 72 ≤ root) (hroot2 : root ≤ 81)
    (hvel1 : 25 ≤ vel) (hvel2 : vel ≤ 45) (ht : 0 ≤ t) (ht2 : t < 295) :
    ∀ (js : List ℕ), (∀ j ∈ js, j ≤ 3) → ∀ (i : ℕ) (m : MIDIFile),
    ∀ e ∈ (cascadeLoop s root t vel js i m).2.notes,
      e ∈ m.notes ∨ (InRange e ∧ e.start + e.duration < 299) := by
  intro js
  induction js with
  | nil =>
    intro hjs i m e he
    exact Or.inl he
  | cons j rest ih =>
    intro hjs i m
    have hj : j ≤ 3 := hjs j (by simp)
    have hrest : ∀ x ∈ rest, x ≤ 3 := fun x hx => hjs x (by simp [hx])
    unfold cascadeLoop
    dsimp only
    intro e he
    have hc : (randChoice ([-5, -3, -2, 2, 3, 5] : List ℤ) s i).1 ∈
        ([-5, -3, -2, 2, 3, 5] : List ℤ) :=
      randChoice_mem (by simp) (hv i).1 (hv i).2
    have hcb : -5 ≤ (randChoice ([-5, -3, -2, 2, 3, 5] : List ℤ) s i).1 ∧
        (randChoice ([-5, -3, -2, 2, 3, 5] : List ℤ) s i).1 ≤ 5 := by
      revert hc
      simp
      omega
    rcases ih hrest (i + 1) _ e he with h | h
    · rw [MIDIFile.addNote] at h
      dsimp only at h
      rcases List.mem_append.mp h with h' | h'
      · exact Or.inl h'
      · rw [List.mem_singleton] at h'
        subst h'
        unfold InRange
        dsimp only
        have hjq : (j : ℚ) ≤ 3 := by exact_mod_cast hj
        have hjq0 : (0:ℚ) ≤ (j : ℚ) := by positivity
        refine Or.inr ⟨⟨by omega, by omega, ?_, ?_, by norm_num, by linarith⟩, by linarith⟩
        · have : (j : ℤ) ≤ 3 := by exact_mod_cast hj
          omega
        · have : (0:ℤ) ≤ (j : ℤ) := by positivity
          omega
    · exact Or.inr h



theorem sparkleBody_range {s : DrawStream} (hv : ValidStream s) (i : ℕ)
    (m : MIDIFile) (t : ℚ) (ht : 0 ≤ t) (ht2 : t < 295) :
    ∀ e ∈ (sparkleBody s i m t).2.1.notes,
      e ∈ m.notes ∨ (InRange e ∧ e.start + e.duration < 299) := by
  unfold sparkleBody
  dsimp only
  have hc : (randChoice ([0, 2, 4, 7, 9] : List ℤ) s (randRandom s i).2).1 ∈
      ([0, 2, 4, 7, 9] : List ℤ) :=
    randChoice_mem (by simp) (hv _).1 (hv _).2
  have hcb : 0 ≤ (randChoice ([0, 2, 4, 7, 9] : List ℤ) s (randRandom s i).2).1 ∧
      (randChoice ([0, 2, 4, 7, 9] : List ℤ) s (randRandom s i).2).1 ≤ 9 := by
    revert hc
    simp
    omega
  have hvb := randRandint_bounds (a := 25) (b := 45) (by norm_num)
    (hv (randChoice ([0, 2, 4, 7, 9] : List ℤ) s (randRandom s i).2).2).1
    (hv (randChoice ([0, 2, 4, 7, 9] : List ℤ) s (randRandom s i).2).2).2
  repeat' split
  all_goals try dsimp only
  · -- cascade branch
    intro e he
    have hn := randRandint_bounds (a := 2) (b := 4) (by norm_num)
      (hv ((randRandom s (randRandint 25 45 s (randChoice ([0, 2, 4, 7, 9] : List ℤ) s
        (randRandom s i).2).2).2).2)).1
      (hv ((randRandom s (randRandint 25 45 s (randChoice ([0, 2, 4, 7, 9] : List ℤ) s
        (randRandom s i).2).2).2).2)).2
    have hjs : ∀ j ∈ List.range ((randRandint 2 4 s
        (randRandom s (randRandint 25 45 s (randChoice ([0, 2, 4, 7, 9] : List ℤ) s
          (randRandom s i).2).2).2).2).1).toNat, j ≤ 3 := by
      intro j hj
      rw [List.mem_range] at hj
      omega
    rcases cascadeLoop_range hv _ t _ (by omega) (by omega) hvb.1 hvb.2 ht ht2
        _ hjs _ _ e he with h | h
    · rw [MIDIFile.addNote] at h
      dsimp only at h
      rcases List.mem_append.mp h with h' | h'
      · exact Or.inl h'
      · rw [List.mem_singleton] at h'
        subst h'
        unfold InRange
        dsimp only
        exact Or.inr ⟨⟨by omega, by omega, by omega, by omega, by norm_num, ht⟩,
          by linarith⟩
    · exact Or.inr h
  · -- sparkle without cascade
    intro e he
    rw [MIDIFile.addNote] at he
    dsimp only at he
    rcases List.mem_append.mp he with h' | h'
    · exact Or.inl h'
    · rw [List.mem_singleton] at h'
      subst h'
      unfold InRange
      dsimp only
      exact Or.inr ⟨⟨by omega, by omega, by omega, by omega, by norm_num, ht⟩,
        by linarith⟩
  · -- nothing emitted
    intro e he
    exact Or.inl he



theorem sparkleLoop_range {s : DrawStream} (hv : ValidStream s) :
    ∀ (f i : ℕ) (m : MIDIFile) (t : ℚ), 0 ≤ t →
    ∀ e ∈ (sparkleLoop s f i m t).2.1.notes,
      e ∈ m.notes ∨ (InRange e ∧ e.start + e.duration < 299) := by
  intro f
  induction f with
  | zero =>
    intro i m t ht e he
    exact Or.inl he
  | succ f ih =>
    intro i m t ht
    unfold sparkleLoop
    split
    · rcases hB : sparkleBody s i m t with ⟨i', m', t'⟩
      have hR := sparkleBody_range hv i m t ht (by linarith [(by assumption : t < 300 - 5)])
      have hT := sparkleBody_time hv i m t
      rw [hB] at hR hT
      dsimp only at hR hT ⊢
      have ht' : 0 ≤ t' := by linarith [hT.1]
      intro e he
      rcases ih i' m' t' ht' e he with h | h
      · exact hR e h
      · exact Or.inr h
    · intro e he
      exact Or.inl he

theorem swellAt_range {s : DrawStream} (hv : ValidStream s) (t : ℚ) (i : ℕ)
    (m : MIDIFile) (ht : 0 ≤ t) :
    ∀ e ∈ (swellAt s t i m).2.notes,
      e ∈ m.notes ∨ (InRange e ∧ e.start + e.duration ≤ t + 27/2) := by
  have hc : (randChoice ([0, 5, 7, -5] : List ℤ) s i).1 ∈
      ([0, 5, 7, -5] : List ℤ) :=
    randChoice_mem (by simp) (hv _).1 (hv _).2
  have hcb : -5 ≤ (randChoice ([0, 5, 7, -5] : List ℤ) s i).1 ∧
      (randChoice ([0, 5, 7, -5] : List ℤ) s i).1 ≤ 7 := by
    revert hc
    simp
    omega
  unfold swellAt MIDIFile.addNote
  dsimp only
  repeat' split
  all_goals try dsimp only
  all_goals intro e he
  all_goals try simp at he
  all_goals try casesm* _ ∨ _
  all_goals first
    | exact Or.inl (by assumption)
    | (subst_vars
       unfold InRange
       dsimp only
       exact Or.inr ⟨⟨by omega, by omega, by omega, by omega, by norm_num,
         by linarith⟩, by linarith⟩)

theorem swellLayer_range {s : DrawStream} (hv : ValidStream s) (i : ℕ)
    (m : MIDIFile) :
    ∀ e ∈ (swellLayer s i m).2.notes,
      e ∈ m.notes ∨ (InRange e ∧ e.start + e.duration ≤ 567/2) := by
  unfold swellLayer
  rcases h1 : swellAt s 45 i m with ⟨i1, m1⟩
  have A1 := swellAt_range hv 45 i m (by norm_num)
  rw [h1] at A1
  dsimp only
  rcases h2 : swellAt s 95 i1 m1 with ⟨i2, m2⟩
  have A2 := swellAt_range hv 95 i1 m1 (by norm_num)
  rw [h2] at A2
  dsimp only
  rcases h3 : swellAt s 150 i2 m2 with ⟨i3, m3⟩
  have A3 := swellAt_range hv 150 i2 m2 (by norm_num)
  rw [h3] at A3
  dsimp only
  rcases h4 : swellAt s 210 i3 m3 with ⟨i4, m4⟩
  have A4 := swellAt_range hv 210 i3 m3 (by norm_num)
  rw [h4] at A4
  dsimp only
  rcases h5 : swellAt s 270 i4 m4 with ⟨i5, m5⟩
  have A5 := swellAt_range hv 270 i4 m4 (by norm_num)
  rw [h5] at A5
  dsimp only at A1 A2 A3 A4 A5 ⊢
  intro e he
  rcases A5 e he with h | ⟨hr, hb⟩
  · rcases A4 e h with h' | ⟨hr, hb⟩
    · rcases A3 e h' with h2' | ⟨hr, hb⟩
      · rcases A2 e h2' with h3' | ⟨hr, hb⟩
        · rcases A1 e h3' with h4' | ⟨hr, hb⟩
          · exact Or.inl h4'
          · exact Or.inr ⟨hr, by linarith⟩
        · exact Or.inr ⟨hr, by linarith⟩
      · exact Or.inr ⟨hr, by linarith⟩
    · exact Or.inr ⟨hr, by linarith⟩
  · exact Or.inr ⟨hr, by linarith⟩

theorem bassBody_range {s : DrawStream} (hv : ValidStream s) (i : ℕ)
    (m : MIDIFile) (t : ℚ) (ht : 0 ≤ t) :
    ∀ e ∈ (bassBody s i m t).2.1.notes,
      e ∈ m.notes ∨ (InRange e ∧ e.start + e.duration ≤ t + 8) := by
  have hc : (randChoice ([0, 5, 7] : List ℤ) s (randRandom s i).2).1 ∈
      ([0, 5, 7] : List ℤ) :=
    randChoice_mem (by simp) (hv _).1 (hv _).2
  have hcb : 0 ≤ (randChoice ([0, 5, 7] : List ℤ) s (randRandom s i).2).1 ∧
      (randChoice ([0, 5, 7] : List ℤ) s (randRandom s i).2).1 ≤ 7 := by
    revert hc
    simp
    omega
  unfold bassBody MIDIFile.addNote
  dsimp only
  repeat' split
  all_goals try dsimp only
  all_goals intro e he
  all_goals try simp at he
  all_goals try casesm* _ ∨ _
  all_goals first
    | exact Or.inl (by assumption)
    | (subst_vars
       unfold InRange
       dsimp only
       exact Or.inr ⟨⟨by omega, by omega, by omega, by omega, by norm_num,
         by linarith⟩, by linarith⟩)

theorem bassLoop_range {s : DrawStream} (hv : ValidStream s) :
    ∀ (f i : ℕ) (m : MIDIFile) (t : ℚ), 0 ≤ t →
    ∀ e ∈ (bassLoop s f i m t).2.1.notes,
      e ∈ m.notes ∨ (InRange e ∧ e.start + e.duration < 288) := by
  intro f
  induction f with
  | zero =>
    intro i m t ht e he
    exact Or.inl he
  | succ f ih =>
    intro i m t ht
    unfold bassLoop
    split
    · rcases hB : bassBody s i m t with ⟨i', m', t'⟩
      have hR := bassBody_range hv i m t ht
      have hT := bassBody_time hv i m t
      rw [hB] at hR hT
      dsimp only at hR hT ⊢
      have ht' : 0 ≤ t' := by linarith [hT.1]
      intro e he
      rcases ih i' m' t' ht' e he with h | h
      · rcases hR e h with h' | ⟨hr, hb⟩
        · exact Or.inl h'
        · have hg : t < 300 - 20 := by assumption
          exact Or.inr ⟨hr, by linarith⟩
      · exact Or.inr h
    · intro e he
      exact Or.inl he

/-! ## Numeric evaluation of the tonal center at the first melody iteration -/

theorem pi_cube_lt : Real.pi ^ 3 < 32 := by
  have h := Real.pi_lt_3141593
  have h0 := Real.pi_pos
  have h1 : Real.pi < 3.15 := by linarith
  have h2 : Real.pi ^ 2 < 3.15 ^ 2 := by nlinarith
  nlinarith

theorem melodyCenter_at_8 : melodyCenter 8 = 61 := by
  unfold melodyCenter pyInt
  have hθ : (((8:ℚ):ℝ) / 300) * Real.pi * 4 = 8 * Real.pi / 75 := by
    push_cast
    ring
  rw [hθ]
  have hπl := Real.pi_gt_3141592
  have hπu := Real.pi_lt_3141593
  have hπ3 := pi_cube_lt
  have hpos : (0:ℝ) < 8 * Real.pi / 75 := by positivity
  have hle1 : 8 * Real.pi / 75 ≤ 1 := by nlinarith
  have hup := Real.sin_lt hpos
  have hlow := Real.sin_gt_sub_cube hpos hle1
  have hcube : (8 * Real.pi / 75) ^ 3 = 512 * Real.pi ^ 3 / 421875 := by ring
  have hx1 : (1:ℝ) ≤ Real.sin (8 * Real.pi / 75) * 5 := by nlinarith
  have hx2 : Real.sin (8 * Real.pi / 75) * 5 < 2 := by nlinarith
  rw [if_pos (by linarith)]
  have hfl : ⌊Real.sin (8 * Real.pi / 75) * 5⌋ = 1 := by
    rw [Int.floor_eq_iff]
    constructor
    · exact_mod_cast hx1
    · push_cast
      linarith
  rw [hfl]
  norm_num

theorem melodyCenterSpec_at_8 : melodyCenterSpec 8 = 63 := by
  unfold melodyCenterSpec
  have hθ : 2 * Real.pi * 4 * (((8:ℚ):ℝ) / 300) = 16 * Real.pi / 75 := by
    push_cast
    ring
  rw [hθ]
  have hπl := Real.pi_gt_3141592
  have hπu := Real.pi_lt_3141593
  have hπ3 := pi_cube_lt
  have hpos : (0:ℝ) < 16 * Real.pi / 75 := by positivity
  have hle1 : 16 * Real.pi / 75 ≤ 1 := by nlinarith
  have hup := Real.sin_lt hpos
  have hlow := Real.sin_gt_sub_cube hpos hle1
  have hcube : (16 * Real.pi / 75) ^ 3 = 4096 * Real.pi ^ 3 / 421875 := by ring
  have hx1 : (5:ℝ) * Real.sin (16 * Real.pi / 75) ≥ 5/2 := by nlinarith
  have hx2 : (5:ℝ) * Real.sin (16 * Real.pi / 75) < 7/2 := by nlinarith
  have hr : round ((5:ℝ) * Real.sin (16 * Real.pi / 75)) = 3 := by
    rw [round_eq]
    rw [Int.floor_eq_iff]
    constructor
    · push_cast
      linarith
    · push_cast
      linarith
  rw [hr]
  norm_num

theorem melodyBody_pairStream_eval :
    melodyBody pairStream 0 (MIDIFile.mk0 4) ⟨8, "lydian", none⟩ =
      (7, ⟨4, [], [], [⟨0, 1, 61, 8, 4, 35⟩, ⟨0, 1, 63, 8 + 3/10, 7/2, 27⟩]⟩,
        ⟨20, "lydian", some 61⟩) := by
  unfold melodyBody gestureDispatch gesturePair melodyGap randRandom randChoice
    randUniform randRandint MIDIFile.mk0 MIDIFile.addNote
  dsimp only
  rw [melodyCenter_at_8]
  norm_num [pairStream, get_scale, modes, List.lookup, List.getD]

/-! ## Claim C3: the Mode/Scale Engine -/

/-- C3: for every root pitch and every registered mode identifier,
`get_scale` returns exactly 7 pitch values, strictly increasing, with first
element equal to the root; `get_scale 60 "dorian"` is exactly
`[60, 62, 63, 65, 67, 69, 70]`; and every unregistered mode identifier fails
(the `KeyError` of the dictionary lookup, modelled as `none`). -/
theorem C3_scale_engine :
    (∀ root : ℤ, ∀ mode : String, mode ∈ modeNames →
      ∃ l : List ℤ, get_scale root mode = some l ∧ l.length = 7 ∧
        l.Chain' (· < ·) ∧ l.head? = some root) ∧
    get_scale 60 "dorian" = some [60, 62, 63, 65, 67, 69, 70] ∧
    (∀ root : ℤ, ∀ mode : String, mode ∉ modeNames → get_scale root mode = none) := by
  refine ⟨?_, by decide, ?_⟩
  · intro root mode h
    simp only [modeNames, modes, List.map_cons, List.map_nil, List.mem_cons,
      List.not_mem_nil, or_false] at h
    rcases h with h | h | h | h <;> subst h <;>
      refine ⟨_, rfl, by simp, ?_, by simp⟩ <;>
      simp [get_scale, modes, List.lookup, List.chain'_cons]
  · intro root mode h
    simp only [modeNames, modes, List.map_cons, List.map_nil, List.mem_cons,
      List.not_mem_nil, or_false, not_or] at h
    obtain ⟨h1, h2, h3, h4⟩ := h
    have e1 : (mode == "lydian") = false := beq_eq_false_iff_ne.mpr h1
    have e2 : (mode == "dorian") = false := beq_eq_false_iff_ne.mpr h2
    have e3 : (mode == "mixolydian") = false := beq_eq_false_iff_ne.mpr h3
    have e4 : (mode == "aeolian") = false := beq_eq_false_iff_ne.mpr h4
    simp [get_scale, modes, List.lookup, e1, e2, e3, e4]

/-- Witness for C3 at concrete inputs: the registered mode `"lydian"` with
root 60, and the unregistered identifier `"phrygian"`. -/
theorem C3_scale_engine_witness :
    (∃ l : List ℤ, get_scale 60 "lydian" = some l ∧ l.length = 7 ∧
      l.Chain' (· < ·) ∧ l.head? = some 60) ∧
    get_scale 0 "phrygian" = none :=
  ⟨C3_scale_engine.1 60 "lydian" (by decide),
   C3_scale_engine.2.2 0 "phrygian" (by decide)⟩

/-! ## Claim C1: determinism under a fixed seed

Seeding the shared source with the constant 123 determines the entire draw
stream; an independent run after the same seeding sees a pointwise-equal
stream, starting at cursor 0.  The claim is that the whole composition —
every note event, in order, with its track/channel, pitch, start, duration
and velocity, together with the tempo and program entries that make up the
output artifact — is a function of that stream alone. -/

/-- C1: two runs of the composition engine over pointwise-equal draw
streams (as produced by seeding with the same constant 123), started at the
same cursor, produce exactly the same note-event sequence and the same
complete output artifact state. -/
theorem C1_fixed_seed_determinism (s1 s2 : DrawStream) (i : ℕ)
    (h : ∀ n, s1 n = s2 n) :
    (generate_ambient s1 i).1.notes = (generate_ambient s2 i).1.notes ∧
      generate_ambient s1 i = generate_ambient s2 i := by
  have hs : s1 = s2 := funext h
  rw [hs]
  exact ⟨rfl, rfl⟩

/-- Witness for C1 at a concrete stream (the constant-zero stream on both
sides, standing for the stream obtained from seed 123). -/
theorem C1_fixed_seed_determinism_witness :
    (∀ n, zeroStream n = zeroStream n) ∧
    ((generate_ambient zeroStream 0).1.notes =
        (generate_ambient zeroStream 0).1.notes ∧
      generate_ambient zeroStream 0 = generate_ambient zeroStream 0) :=
  ⟨fun _ => rfl, C1_fixed_seed_determinism zeroStream zeroStream 0 fun _ => rfl⟩

/-! ## Claim C7: track/instrument layout of the output artifact

The source comments declare "Track 0: pad (program 89), Track 1: piano
(program 0), Track 2: celesta (program 8), Track 3: strings (program 48)"
and allocate `MIDIFile(4)` "for layering", but every `addProgramChange` and
every `addNote` call passes 0 as the *track* argument: the four instrument
programs are all registered on track 0 (on channels 0–3), and every note
event of every layer is written to track 0, distinguished only by its
channel (drone/bass 0, melody 1, sparkle 2, swell 3).  Tracks 1–3 of the
output artifact stay empty. -/

/-- C7 (evidence of the track-routing bug): in every run, the output carries
tempo 55 once on track 0 and the four program changes 89, 0, 8, 48, but the
program changes sit on track 0 (channels 0–3, the first component of every
`programs` entry is 0), and every note event of every layer has
`track = 0` — no note is ever written to tracks 1, 2 or 3. -/
theorem C7_track_channel_layout (s : DrawStream) (i : ℕ) :
    (generate_ambient s i).1.numTracks = 4 ∧
    (generate_ambient s i).1.tempos = [(0, 0, 55)] ∧
    (generate_ambient s i).1.programs =
      [(0, 0, 0, 89), (0, 1, 0, 0), (0, 2, 0, 8), (0, 3, 0, 48)] ∧
    (∀ e ∈ (generate_ambient s i).1.notes, e.track = 0 ∧ e.channel < 4) := by
  unfold generate_ambient MIDIFile.mk0 MIDIFile.addTempo MIDIFile.addProgramChange
  dsimp only
  simp only [List.nil_append, List.singleton_append, List.cons_append]
  rcases hD : droneLoop s 9 i
      ⟨4, [(0, 0, 55)], [(0, 0, 0, 89), (0, 1, 0, 0), (0, 2, 0, 8), (0, 3, 0, 48)], []⟩
      ⟨0, 0⟩ with ⟨i1, m1, st1⟩
  have D := droneLoop_static s 9 i
    ⟨4, [(0, 0, 55)], [(0, 0, 0, 89), (0, 1, 0, 0), (0, 2, 0, 8), (0, 3, 0, 48)], []⟩
    ⟨0, 0⟩
  rw [hD] at D
  dsimp only
  rcases hM : melodyLoop s 100 i1 m1 ⟨8, "lydian", none⟩ with ⟨i2, m2, st2⟩
  have M := melodyLoop_static s 100 i1 m1 ⟨8, "lydian", none⟩
  rw [hM] at M
  dsimp only
  rcases hS : sparkleLoop s 40 i2 m2 20 with ⟨i3, m3, t3⟩
  have S := sparkleLoop_static s 40 i2 m2 20
  rw [hS] at S
  dsimp only
  rcases hW : swellLayer s i3 m3 with ⟨i4, m4⟩
  have W := swellLayer_static s i3 m3
  rw [hW] at W
  dsimp only
  rcases hB : bassLoop s 12 i4 m4 30 with ⟨i5, m5, t5⟩
  have B := bassLoop_static s 12 i4 m4 30
  rw [hB] at B
  dsimp only
  obtain ⟨Dt, Dp, Dn, -, -, De⟩ := D
  obtain ⟨Mt, Mp, Mn, -, -, Me⟩ := M
  obtain ⟨St, Sp, Sn, -, -, Se⟩ := S
  obtain ⟨Wt, Wp, Wn, -, -, We⟩ := W
  obtain ⟨Bt, Bp, Bn, -, -, Be⟩ := B
  dsimp only at Dt Dp Dn De
  refine ⟨?_, ?_, ?_, ?_⟩
  · rw [Bn, Wn, Sn, Mn, Dn]
  · rw [Bt, Wt, St, Mt, Dt]
  · rw [Bp, Wp, Sp, Mp, Dp]
  · intro e he
    rcases Be e he with h | h
    · rcases We e h with h' | h'
      · rcases Se e h' with h2 | h2
        · rcases Me e h2 with h3 | h3
          · rcases De e h3 with h4 | h4
            · simp at h4
            · exact ⟨h4.1, by omega⟩
          · exact ⟨h3.1, by omega⟩
        · exact ⟨h2.1, by omega⟩
      · exact ⟨h'.1, by omega⟩
    · exact ⟨h.1, by omega⟩

/-- C8: for every valid draw stream, each layer loop body strictly advances
its cursor by a strictly positive gap lying in the documented range (drone
hold in [35,45], melody gap in [3,9) or [12,20), sparkle gap in [8,18),
bass gap in [25,45)), and consequently every layer loop, run with the fuel
`generate_ambient` supplies and from its initial cursor, reaches its
terminal condition (cursor at or beyond its cutoff: 300, 290, 295, 280)
after finitely many iterations, for every sequence of draws. -/
theorem C8_layer_loops_terminate {s : DrawStream} (hv : ValidStream s) :
    (∀ (i : ℕ) (m : MIDIFile) (st : DroneState),
      st.time + 35 ≤ (droneBody s i m st).2.2.time ∧
      (droneBody s i m st).2.2.time ≤ st.time + 45) ∧
    (∀ (i : ℕ) (m : MIDIFile) (st : MelodyState),
      (st.time + 3 ≤ (melodyBody s i m st).2.2.time ∧
        (melodyBody s i m st).2.2.time < st.time + 9) ∨
      (st.time + 12 ≤ (melodyBody s i m st).2.2.time ∧
        (melodyBody s i m st).2.2.time < st.time + 20)) ∧
    (∀ (i : ℕ) (m : MIDIFile) (t : ℚ),
      t + 8 ≤ (sparkleBody s i m t).2.2 ∧ (sparkleBody s i m t).2.2 < t + 18) ∧
    (∀ (i : ℕ) (m : MIDIFile) (t : ℚ),
      t + 25 ≤ (bassBody s i m t).2.2 ∧ (bassBody s i m t).2.2 < t + 45) ∧
    (∀ (i : ℕ) (m : MIDIFile), 300 ≤ (droneLoop s 9 i m ⟨0, 0⟩).2.2.time) ∧
    (∀ (i : ℕ) (m : MIDIFile),
      290 ≤ (melodyLoop s 100 i m ⟨8, "lydian", none⟩).2.2.time) ∧
    (∀ (i : ℕ) (m : MIDIFile), 295 ≤ (sparkleLoop s 40 i m 20).2.2) ∧
    (∀ (i : ℕ) (m : MIDIFile), 280 ≤ (bassLoop s 12 i m 30).2.2) := by
  refine ⟨droneBody_time hv, melodyBody_time hv, sparkleBody_time hv,
    bassBody_time hv, ?_, ?_, ?_, ?_⟩
  · intro i m
    have h := droneLoop_time hv 9 i m ⟨0, 0⟩
    dsimp only at h
    norm_num at h
    exact h
  · intro i m
    have h := melodyLoop_time hv 100 i m ⟨8, "lydian", none⟩
    dsimp only at h
    norm_num at h
    exact h
  · intro i m
    have h := sparkleLoop_time hv 40 i m 20
    norm_num at h
    exact h
  · intro i m
    have h := bassLoop_time hv 12 i m 30
    norm_num at h
    exact h

/-- Witness for C8 at the constant-1/2 stream. -/
theorem C8_layer_loops_terminate_witness :
    ValidStream halfStream ∧
    300 ≤ (droneLoop halfStream 9 0 (MIDIFile.mk0 4) ⟨0, 0⟩).2.2.time ∧
    290 ≤ (melodyLoop halfStream 100 0 (MIDIFile.mk0 4) ⟨8, "lydian", none⟩).2.2.time ∧
    295 ≤ (sparkleLoop halfStream 40 0 (MIDIFile.mk0 4) 20).2.2 ∧
    280 ≤ (bassLoop halfStream 12 0 (MIDIFile.mk0 4) 30).2.2 := by
  have hv : ValidStream halfStream := by
    intro n
    constructor <;> norm_num [halfStream]
  exact ⟨hv, (C8_layer_loops_terminate hv).2.2.2.2.1 0 _, (C8_layer_loops_terminate hv).2.2.2.2.2.1 0 _,
    (C8_layer_loops_terminate hv).2.2.2.2.2.2.1 0 _, (C8_layer_loops_terminate hv).2.2.2.2.2.2.2 0 _⟩

/-- C2: for every valid draw stream, every note event emitted by any of the
five layers satisfies the range invariant (pitch in [0,127], velocity in
[0,127], duration strictly positive, start non-negative) — in particular
the lowest sparkle-cascade velocity stays non-negative — and every note the
drone body emits (including the optional third) has duration at least 27. -/
theorem C2_range_invariants {s : DrawStream} (hv : ValidStream s) (i : ℕ) :
    (∀ e ∈ (generate_ambient s i).1.notes, InRange e) ∧
    (∀ (j : ℕ) (m : MIDIFile) (st : DroneState), 0 ≤ st.time →
      ∀ e ∈ (droneBody s j m st).2.1.notes, e ∈ m.notes ∨ 27 ≤ e.duration) := by
  constructor
  · unfold generate_ambient MIDIFile.mk0 MIDIFile.addTempo MIDIFile.addProgramChange
    dsimp only
    simp only [List.nil_append, List.singleton_append, List.cons_append]
    rcases hD : droneLoop s 9 i
        ⟨4, [(0, 0, 55)], [(0, 0, 0, 89), (0, 1, 0, 0), (0, 2, 0, 8), (0, 3, 0, 48)], []⟩
        ⟨0, 0⟩ with ⟨i1, m1, st1⟩
    have D := droneLoop_range hv 9 i
      ⟨4, [(0, 0, 55)], [(0, 0, 0, 89), (0, 1, 0, 0), (0, 2, 0, 8), (0, 3, 0, 48)], []⟩
      ⟨0, 0⟩ (by norm_num)
    rw [hD] at D
    dsimp only at D ⊢
    rcases hM : melodyLoop s 100 i1 m1 ⟨8, "lydian", none⟩ with ⟨i2, m2, st2⟩
    have M := melodyLoop_range hv 100 i1 m1 ⟨8, "lydian", none⟩ (by norm_num)
      (by simp [modeNames, modes])
    rw [hM] at M
    dsimp only at M ⊢
    rcases hS : sparkleLoop s 40 i2 m2 20 with ⟨i3, m3, t3⟩
    have S := sparkleLoop_range hv 40 i2 m2 20 (by norm_num)
    rw [hS] at S
    dsimp only at S ⊢
    rcases hW : swellLayer s i3 m3 with ⟨i4, m4⟩
    have W := swellLayer_range hv i3 m3
    rw [hW] at W
    dsimp only at W ⊢
    rcases hB : bassLoop s 12 i4 m4 30 with ⟨i5, m5, t5⟩
    have B := bassLoop_range hv 12 i4 m4 30 (by norm_num)
    rw [hB] at B
    dsimp only at B ⊢
    intro e he
    rcases B e he with h | ⟨hr, -⟩
    · rcases W e h with h' | ⟨hr, -⟩
      · rcases S e h' with h2 | ⟨hr, -⟩
        · rcases M e h2 with h3 | ⟨hr, -⟩
          · rcases D e h3 with h4 | ⟨hr, -⟩
            · simp at h4
            · exact hr
          · exact hr
        · exact hr
      · exact hr
    · exact hr
  · intro j m st ht e he
    rcases droneBody_range hv j m st ht e he with h | ⟨-, hd⟩
    · exact Or.inl h
    · exact Or.inr hd

/-- Witness for C2 at the constant-1/2 stream. -/
theorem C2_range_invariants_witness :
    ValidStream halfStream ∧
    (∀ e ∈ (generate_ambient halfStream 0).1.notes, InRange e) := by
  have hv : ValidStream halfStream := by
    intro n
    constructor <;> norm_num [halfStream]
  exact ⟨hv, (C2_range_invariants hv 0).1⟩

theorem droneBody_emits_root (s : DrawStream) (i : ℕ) (m : MIDIFile)
    (st : DroneState) :
    (⟨0, 0, droneRoots.getD (st.rootIdx % droneRoots.length) 0, st.time,
      (randUniform 35 45 s i).1, 30⟩ : NoteEvent) ∈ (droneBody s i m st).2.1.notes ∧
    (droneBody s i m st).2.2.time = st.time + (randUniform 35 45 s i).1 := by
  unfold droneBody randUniform randRandom MIDIFile.addNote
  dsimp only
  repeat' split
  all_goals try dsimp only
  all_goals constructor
  all_goals try rfl
  all_goals simp

theorem droneLoop_overrun {s : DrawStream} (hv : ValidStream s) :
    ∀ (f i : ℕ) (m : MIDIFile) (st : DroneState), st.time < 300 →
    (300 : ℚ) ≤ st.time + 35 * f →
    ∃ e ∈ (droneLoop s f i m st).2.1.notes,
      e.start < 300 ∧ 300 ≤ e.start + e.duration := by
  intro f
  induction f with
  | zero =>
    intro i m st hlt hge
    exfalso
    push_cast at hge
    linarith
  | succ f ih =>
    intro i m st hlt hge
    unfold droneLoop
    rw [if_pos hlt]
    rcases hB : droneBody s i m st with ⟨i', m', st'⟩
    have hE := droneBody_emits_root s i m st
    have hT := droneBody_time hv i m st
    rw [hB] at hE hT
    dsimp only at hE hT ⊢
    obtain ⟨hmem, htime⟩ := hE
    by_cases hc : st'.time < 300
    · -- not yet the final iteration: recurse
      refine ih i' m' st' hc ?_
      push_cast
      push_cast at hge
      have h35 : st.time + 35 ≤ st'.time := hT.1
      linarith
    · -- final iteration: the root note emitted here overruns
      push_neg at hc
      obtain ⟨tail, htail⟩ := (droneLoop_static s f i' m' st').2.2.2.2.1
      refine ⟨⟨0, 0, droneRoots.getD (st.rootIdx % droneRoots.length) 0, st.time,
        (randUniform 35 45 s i).1, 30⟩, ?_, ?_, ?_⟩
      · rw [htail]
        exact List.mem_append_left _ hmem
      · exact hlt
      · dsimp only
        have : st'.time = st.time + (randUniform 35 45 s i).1 := htime
        linarith
  


/-- C9 (amended): in every run over a valid stream, the root note of the
final drone iteration starts strictly before 300 and its hold carries it to
or past 300 (start < 300 and 300 at most start+duration), and that event is
present, unclamped and unrejected, in the final output of the whole
composition.  (Strict excess past 300 holds unless the final hold lands the
cursor exactly on 300, which the counterexample below realizes.) -/
theorem C9_overrun_reaches_total_duration {s : DrawStream} (hv : ValidStream s) (i : ℕ) :
    ∃ e ∈ (generate_ambient s i).1.notes,
      e.start < 300 ∧ 300 ≤ e.start + e.duration := by
  unfold generate_ambient MIDIFile.mk0 MIDIFile.addTempo MIDIFile.addProgramChange
  dsimp only
  simp only [List.nil_append, List.singleton_append, List.cons_append]
  rcases hD : droneLoop s 9 i
      ⟨4, [(0, 0, 55)], [(0, 0, 0, 89), (0, 1, 0, 0), (0, 2, 0, 8), (0, 3, 0, 48)], []⟩
      ⟨0, 0⟩ with ⟨i1, m1, st1⟩
  have D := droneLoop_overrun hv 9 i
    ⟨4, [(0, 0, 55)], [(0, 0, 0, 89), (0, 1, 0, 0), (0, 2, 0, 8), (0, 3, 0, 48)], []⟩
    ⟨0, 0⟩ (by norm_num) (by norm_num)
  rw [hD] at D
  dsimp only at D ⊢
  obtain ⟨e, he, h1, h2⟩ := D
  rcases hM : melodyLoop s 100 i1 m1 ⟨8, "lydian", none⟩ with ⟨i2, m2, st2⟩
  have M := (melodyLoop_static s 100 i1 m1 ⟨8, "lydian", none⟩).2.2.2.2.1
  rw [hM] at M
  dsimp only at M ⊢
  obtain ⟨tM, hTM⟩ := M
  rcases hS : sparkleLoop s 40 i2 m2 20 with ⟨i3, m3, t3⟩
  have S := (sparkleLoop_static s 40 i2 m2 20).2.2.2.2.1
  rw [hS] at S
  dsimp only at S ⊢
  obtain ⟨tS, hTS⟩ := S
  rcases hW : swellLayer s i3 m3 with ⟨i4, m4⟩
  have W := (swellLayer_static s i3 m3).2.2.2.2.1
  rw [hW] at W
  dsimp only at W ⊢
  obtain ⟨tW, hTW⟩ := W
  rcases hB : bassLoop s 12 i4 m4 30 with ⟨i5, m5, t5⟩
  have B := (bassLoop_static s 12 i4 m4 30).2.2.2.2.1
  rw [hB] at B
  dsimp only at B ⊢
  obtain ⟨tB, hTB⟩ := B
  refine ⟨e, ?_, h1, h2⟩
  rw [hTB, hTW, hTS, hTM]
  exact List.mem_append_left _ (List.mem_append_left _ (List.mem_append_left _
    (List.mem_append_left _ he)))

set_option maxHeartbeats 1000000 in
/-- Counterexample to C9 as stated: on the valid constant-1/4 stream every
drone hold is exactly 37.5 s, the drone cursor lands on exactly 300 after 8
iterations, and no note event of the entire run has start + duration
strictly exceeding 300. -/
theorem C9_exceeds_counterexample :
    ValidStream quarterStream ∧
    ∀ e ∈ (generate_ambient quarterStream 0).1.notes,
      e.start + e.duration ≤ 300 := by
  refine ⟨by intro n; constructor <;> norm_num [quarterStream], ?_⟩
  have hv : ValidStream quarterStream := by
    intro n
    constructor <;> norm_num [quarterStream]
  unfold generate_ambient MIDIFile.mk0 MIDIFile.addTempo MIDIFile.addProgramChange
  dsimp only
  simp only [List.nil_append, List.singleton_append, List.cons_append]
  rcases hD : droneLoop quarterStream 9 0
      ⟨4, [(0, 0, 55)], [(0, 0, 0, 89), (0, 1, 0, 0), (0, 2, 0, 8), (0, 3, 0, 48)], []⟩
      ⟨0, 0⟩ with ⟨i1, m1, st1⟩
  have D : ∀ e ∈ (droneLoop quarterStream 9 0
      ⟨4, [(0, 0, 55)], [(0, 0, 0, 89), (0, 1, 0, 0), (0, 2, 0, 8), (0, 3, 0, 48)], []⟩
      ⟨0, 0⟩).2.1.notes, e.start + e.duration ≤ 300 := by
    norm_num [droneLoop, droneBody, randUniform, randRandom, quarterStream,
      MIDIFile.addNote, droneRoots]
  rw [hD] at D
  dsimp only at D ⊢
  rcases hM : melodyLoop quarterStream 100 i1 m1 ⟨8, "lydian", none⟩ with ⟨i2, m2, st2⟩
  have M := melodyLoop_range hv 100 i1 m1 ⟨8, "lydian", none⟩ (by norm_num)
    (by simp [modeNames, modes])
  rw [hM] at M
  dsimp only at M ⊢
  rcases hS : sparkleLoop quarterStream 40 i2 m2 20 with ⟨i3, m3, t3⟩
  have S := sparkleLoop_range hv 40 i2 m2 20 (by norm_num)
  rw [hS] at S
  dsimp only at S ⊢
  rcases hW : swellLayer quarterStream i3 m3 with ⟨i4, m4⟩
  have W := swellLayer_range hv i3 m3
  rw [hW] at W
  dsimp only at W ⊢
  rcases hB : bassLoop quarterStream 12 i4 m4 30 with ⟨i5, m5, t5⟩
  have B := bassLoop_range hv 12 i4 m4 30 (by norm_num)
  rw [hB] at B
  dsimp only at B ⊢
  intro e he
  rcases B e he with h | ⟨-, hb⟩
  · rcases W e h with h' | ⟨-, hb⟩
    · rcases S e h' with h2 | ⟨-, hb⟩
      · rcases M e h2 with h3 | ⟨-, hb⟩
        · exact D e h3
        · linarith
      · linarith
    · linarith
  · linarith

/-- Witness for the amended C9 at the constant-1/2 stream. -/
theorem C9_overrun_reaches_total_duration_witness :
    ValidStream halfStream ∧
    ∃ e ∈ (generate_ambient halfStream 0).1.notes,
      e.start < 300 ∧ 300 ≤ e.start + e.duration := by
  have hv : ValidStream halfStream := by
    intro n
    constructor <;> norm_num [halfStream]
  exact ⟨hv, C9_overrun_reaches_total_duration hv 0⟩

theorem droneBody_head (s : DrawStream) (i : ℕ) (m : MIDIFile) (st : DroneState)
    (h : m.notes = []) :
    (droneBody s i m st).2.1.notes.head? =
      some ⟨0, 0, droneRoots.getD (st.rootIdx % droneRoots.length) 0, st.time,
        35 + (45 - 35) * s i, 30⟩ := by
  unfold droneBody randUniform randRandom MIDIFile.addNote
  dsimp only
  repeat' split
  all_goals dsimp only
  all_goals rw [h]
  all_goals rfl

theorem droneBody_idx (s : DrawStream) (i : ℕ) (m : MIDIFile) (st : DroneState) :
    i + 1 ≤ (droneBody s i m st).1 := by
  unfold droneBody randUniform randRandom
  dsimp only
  repeat' split
  all_goals dsimp only
  all_goals omega

theorem droneLoop_head (s : DrawStream) (f i : ℕ) (m : MIDIFile) (st : DroneState)
    (h : m.notes = []) (hlt : st.time < 300) :
    (droneLoop s (f + 1) i m st).2.1.notes.head? =
      some ⟨0, 0, droneRoots.getD (st.rootIdx % droneRoots.length) 0, st.time,
        35 + (45 - 35) * s i, 30⟩ := by
  unfold droneLoop
  rw [if_pos hlt]
  rcases hB : droneBody s i m st with ⟨i', m', st'⟩
  have hH := droneBody_head s i m st h
  rw [hB] at hH
  dsimp only at hH ⊢
  obtain ⟨tail, htail⟩ := (droneLoop_static s f i' m' st').2.2.2.2.1
  rw [htail]
  exact Option.mem_def.mp
    (List.mem_head?_append_of_mem_head? (Option.mem_def.mpr hH))

theorem droneLoop_idx1 (s : DrawStream) (f i : ℕ) (m : MIDIFile) (st : DroneState)
    (hlt : st.time < 300) :
    i + 1 ≤ (droneLoop s (f + 1) i m st).1 := by
  unfold droneLoop
  rw [if_pos hlt]
  rcases hB : droneBody s i m st with ⟨i', m', st'⟩
  have h1 := droneBody_idx s i m st
  rw [hB] at h1
  dsimp only at h1 ⊢
  exact le_trans h1 (droneLoop_static s f i' m' st').2.2.2.1

theorem generate_ambient_head (s : DrawStream) (i : ℕ) :
    (generate_ambient s i).1.notes.head? =
      some ⟨0, 0, 48, 0, 35 + (45 - 35) * s i, 30⟩ := by
  unfold generate_ambient MIDIFile.mk0 MIDIFile.addTempo MIDIFile.addProgramChange
  dsimp only
  rcases hD : droneLoop s 9 i
      ⟨4, [] ++ [(0, 0, 55)],
        [] ++ [(0, 0, 0, 89)] ++ [(0, 1, 0, 0)] ++ [(0, 2, 0, 8)] ++ [(0, 3, 0, 48)],
        []⟩ ⟨0, 0⟩ with ⟨i1, m1, st1⟩
  have hH := droneLoop_head s 8 i
    ⟨4, [] ++ [(0, 0, 55)],
      [] ++ [(0, 0, 0, 89)] ++ [(0, 1, 0, 0)] ++ [(0, 2, 0, 8)] ++ [(0, 3, 0, 48)],
      []⟩ ⟨0, 0⟩ rfl (by norm_num)
  rw [hD] at hH
  dsimp only at hH ⊢
  rcases hM : melodyLoop s 100 i1 m1 ⟨8, "lydian", none⟩ with ⟨i2, m2, st2⟩
  obtain ⟨tM, hTM⟩ := (melodyLoop_static s 100 i1 m1 ⟨8, "lydian", none⟩).2.2.2.2.1
  rw [hM] at hTM
  dsimp only at hTM ⊢
  rcases hS : sparkleLoop s 40 i2 m2 20 with ⟨i3, m3, t3⟩
  obtain ⟨tS, hTS⟩ := (sparkleLoop_static s 40 i2 m2 20).2.2.2.2.1
  rw [hS] at hTS
  dsimp only at hTS ⊢
  rcases hW : swellLayer s i3 m3 with ⟨i4, m4⟩
  obtain ⟨tW, hTW⟩ := (swellLayer_static s i3 m3).2.2.2.2.1
  rw [hW] at hTW
  dsimp only at hTW ⊢
  rcases hB : bassLoop s 12 i4 m4 30 with ⟨i5, m5, t5⟩
  obtain ⟨tB, hTB⟩ := (bassLoop_static s 12 i4 m4 30).2.2.2.2.1
  rw [hB] at hTB
  dsimp only at hTB ⊢
  rw [hTB, hTW, hTS, hTM]
  have step1 : (⟨0, 0, 48, 0, 35 + (45 - 35) * s i, 30⟩ : NoteEvent) ∈
      m1.notes.head? := by
    rw [Option.mem_def, hH]
    rfl
  exact Option.mem_def.mp
    (List.mem_head?_append_of_mem_head?
      (List.mem_head?_append_of_mem_head?
        (List.mem_head?_append_of_mem_head?
          (List.mem_head?_append_of_mem_head? step1))))

theorem generate_ambient_idx (s : DrawStream) (i : ℕ) :
    i + 1 ≤ (generate_ambient s i).2 := by
  unfold generate_ambient MIDIFile.mk0 MIDIFile.addTempo MIDIFile.addProgramChange
  dsimp only
  rcases hD : droneLoop s 9 i
      ⟨4, [] ++ [(0, 0, 55)],
        [] ++ [(0, 0, 0, 89)] ++ [(0, 1, 0, 0)] ++ [(0, 2, 0, 8)] ++ [(0, 3, 0, 48)],
        []⟩ ⟨0, 0⟩ with ⟨i1, m1, st1⟩
  have h1 := droneLoop_idx1 s 8 i
    ⟨4, [] ++ [(0, 0, 55)],
      [] ++ [(0, 0, 0, 89)] ++ [(0, 1, 0, 0)] ++ [(0, 2, 0, 8)] ++ [(0, 3, 0, 48)],
      []⟩ ⟨0, 0⟩ (by norm_num)
  rw [hD] at h1
  dsimp only at h1 ⊢
  rcases hM : melodyLoop s 100 i1 m1 ⟨8, "lydian", none⟩ with ⟨i2, m2, st2⟩
  have h2 := (melodyLoop_static s 100 i1 m1 ⟨8, "lydian", none⟩).2.2.2.1
  rw [hM] at h2
  dsimp only at h2 ⊢
  rcases hS : sparkleLoop s 40 i2 m2 20 with ⟨i3, m3, t3⟩
  have h3 := (sparkleLoop_static s 40 i2 m2 20).2.2.2.1
  rw [hS] at h3
  dsimp only at h3 ⊢
  rcases hW : swellLayer s i3 m3 with ⟨i4, m4⟩
  have h4 := (swellLayer_static s i3 m3).2.2.2.1
  rw [hW] at h4
  dsimp only at h4 ⊢
  rcases hB : bassLoop s 12 i4 m4 30 with ⟨i5, m5, t5⟩
  have h5 := (bassLoop_static s 12 i4 m4 30).2.2.2.1
  rw [hB] at h5
  dsimp only at h5 ⊢
  omega



/-- C10: the output is a function of the state of the shared random source
at call time, and `generate_ambient` consumes the stream without
re-seeding: a second invocation starts at the cursor the first invocation
left (at least one draw past the start).  On the exhibited valid stream
(first draw 0, all later draws 1/2) the second invocation's first drone
root note has hold 40 instead of 35, so the two invocations produce
different note-event sequences. -/
theorem C10_second_invocation_differs :
    ValidStream shiftStream ∧
    (generate_ambient shiftStream (generate_ambient shiftStream 0).2).1.notes ≠
      (generate_ambient shiftStream 0).1.notes := by
  constructor
  · intro n
    unfold shiftStream
    split <;> norm_num
  · intro hEq
    have h1 := generate_ambient_head shiftStream 0
    have hC := generate_ambient_idx shiftStream 0
    have h2 := generate_ambient_head shiftStream (generate_ambient shiftStream 0).2
    rw [hEq] at h2
    have hint := Option.some.inj (h2.symm.trans h1)
    have hdur := congrArg NoteEvent.duration hint
    dsimp only at hdur
    have hz : shiftStream 0 = 0 := by
      unfold shiftStream
      norm_num
    have hgen : ∀ n, n ≠ 0 → shiftStream n = 1/2 := by
      intro n hn
      unfold shiftStream
      rw [if_neg hn]
    have hc2 : shiftStream (generate_ambient shiftStream 0).2 = 1/2 :=
      hgen _ (by omega)
    rw [hz, hc2] at hdur
    norm_num at hdur

/-! ## Claim C4: the melody layer's drifting tonal center

The source computes `60 + int(math.sin(progress * math.pi * 4) * 5)` with
`progress = cursor/300`: the sine's argument is `π·4·cursor/300` (not
`2π·4·cursor/300` as the claim states) and the scaling is Python `int`
truncation toward zero (not `round`).  At the very first melody iteration
(cursor = 8, reached in every run) the two formulas disagree: the code
yields 61, the claimed formula yields 63. -/

/-- Counterexample to C4 as stated: at cursor 8 the code's tonal center is
61 while the claimed formula `60 + round(5·sin(2π·4·cursor/300))` gives 63. -/
theorem C4_center_formula_counterexample :
    melodyCenter 8 = 61 ∧ melodyCenterSpec 8 = 63 ∧
    melodyCenter 8 ≠ melodyCenterSpec 8 := by
  refine ⟨melodyCenter_at_8, melodyCenterSpec_at_8, ?_⟩
  rw [melodyCenter_at_8, melodyCenterSpec_at_8]
  norm_num

/-- C4 (amended): in every iteration of the melody loop the drifting tonal
center equals `60 + trunc(5 * sin(π * 4 * cursor/300))` with truncation
toward zero (Python `int`), `melodyCenter` being exactly the expression the
loop body computes from its cursor; at the first iteration (cursor 8) the
center is 61. -/
theorem C4_melody_center_truncated_sine (t : ℚ) :
    melodyCenter t = 60 + pyInt (5 * Real.sin (Real.pi * 4 * ((t : ℝ) / 300))) ∧
    melodyCenter 8 = 61 := by
  constructor
  · unfold melodyCenter
    have harg : ((t:ℝ)/300) * Real.pi * 4 = Real.pi * 4 * ((t:ℝ)/300) := by ring
    rw [harg, mul_comm]
  · exact melodyCenter_at_8

/-! ## Claim C5: the interval-pair gesture

The source adds the drawn interval to the first pitch in semitones
(`note2 = note1 + interval`), not in scale-degree steps.  In the exhibited
run the first melody iteration lands in the interval-pair branch, draws
`note1 = scale[0] = 61` and `interval = 2`, and emits 63 = one scale step
above 61 in the lydian scale on 61 — not 2, 4, 5 or 7 steps above. -/

/-- Counterexample to C5 as stated: on the valid stream `pairStream` the
melody body's gesture draw is 1/2 ∈ [0.5, 0.7); the two emitted pitches are
61 and 63 (timing/velocity as claimed), but 63 does not lie 2, 4, 5 or 7
scale-degree steps above 61 within the current scale: it is 1 step above. -/
theorem C5_scale_step_counterexample :
    ValidStream pairStream ∧
    (1/2 ≤ pairStream 1 ∧ pairStream 1 < 7/10) ∧
    (melodyBody pairStream 0 (MIDIFile.mk0 4) ⟨8, "lydian", none⟩).2.1.notes =
      [⟨0, 1, 61, 8, 4, 35⟩, ⟨0, 1, 63, 8 + 3/10, 7/2, 27⟩] ∧
    ¬ ∃ k ∈ ([2, 4, 5, 7] : List ℕ),
        stepsAbove ((get_scale 61 "lydian").getD []) 61 63 k := by
  refine ⟨?_, ?_, ?_, ?_⟩
  · intro n
    unfold pairStream
    split <;> norm_num
  · constructor <;> norm_num [pairStream]
  · rw [melodyBody_pairStream_eval]
  · unfold stepsAbove
    decide

/-! ## Claim C6: the last-pitch state update

Three of the four gestures set `last_note` to their final emitted note, but
the interval-pair gesture sets `last_note = note1`, the FIRST of its two
notes, while the second (later) note `note1 + interval` is the last
emitted. -/

/-- Counterexample to C6 as stated: after the interval-pair gesture of the
exhibited run the layer's last-pitch variable holds 61, while the final
(last-emitted) note of the gesture has pitch 63. -/
theorem C6_last_pitch_counterexample :
    (melodyBody pairStream 0 (MIDIFile.mk0 4) ⟨8, "lydian", none⟩).2.2.lastNote =
      some 61 ∧
    ((melodyBody pairStream 0 (MIDIFile.mk0 4)
        ⟨8, "lydian", none⟩).2.1.notes.getLast?).map NoteEvent.pitch = some 63 ∧
    (melodyBody pairStream 0 (MIDIFile.mk0 4) ⟨8, "lydian", none⟩).2.2.lastNote ≠
      ((melodyBody pairStream 0 (MIDIFile.mk0 4)
        ⟨8, "lydian", none⟩).2.1.notes.getLast?).map NoteEvent.pitch := by
  rw [melodyBody_pairStream_eval]
  refine ⟨rfl, rfl, ?_⟩
  simp

theorem modeD_mem (s : DrawStream) (hv : ValidStream s) (j : ℕ) :
    modeNames.getD (⌊s j * (modeNames.length : ℚ)⌋).toNat default ∈ modeNames := by
  have h := randChoice_mem (l := modeNames) (by simp [modeNames, modes])
    (hv j).1 (hv j).2
  simpa [randChoice] using h

/-- C5 (amended): whenever the melody layer's gesture draw falls in
[0.5, 0.7), the first emitted pitch is drawn from the current 7-note scale
and the second emitted pitch is the first plus an interval of 2, 4, 5 or 7
SEMITONES (`note2 = note1 + interval`) — not scale-degree steps, so it need
not be a scale member; the first note has duration 4, the second starts 0.3
later with duration 3.5 and velocity 8 less than the first. -/
theorem C5_interval_pair_semitones {s : DrawStream} (hv : ValidStream s) (i : ℕ)
    (m : MIDIFile) (st : MelodyState) (hmode : st.mode ∈ modeNames)
    (hc1 : 1/2 ≤ s (if s i < 2/25 then i + 1 + 1 else i + 1))
    (hc2 : s (if s i < 2/25 then i + 1 + 1 else i + 1) < 7/10) :
    ∃ mode ∈ modeNames, ∃ note1 interval vel,
      note1 ∈ (get_scale (melodyCenter st.time) mode).getD [] ∧
      interval ∈ ([2, 4, 5, 7] : List ℤ) ∧ 35 ≤ vel ∧ vel ≤ 50 ∧
      (melodyBody s i m st).2.1.notes =
        m.notes ++ [⟨0, 1, note1, st.time, 4, vel⟩,
          ⟨0, 1, note1 + interval, st.time + 3/10, 7/2, vel - 8⟩] := by
  unfold melodyBody randRandom randChoice
  dsimp only
  split
  · rw [if_pos (by assumption)] at hc1 hc2
    have hmode' := modeD_mem s hv (i + 1)
    have hlen : ((get_scale (melodyCenter st.time)
        (modeNames.getD (⌊s (i + 1) * (modeNames.length : ℚ)⌋).toNat
          default)).getD []).length = 7 := scaleD_length hmode'
    obtain ⟨note1, interval, vel, heq, hmem, hiv, h35, h50⟩ :=
      gesturePair_spec hv (i + 1 + 1 + 1) m st.time
        ((get_scale (melodyCenter st.time)
          (modeNames.getD (⌊s (i + 1) * (modeNames.length : ℚ)⌋).toNat
            default)).getD []) hlen
    refine ⟨_, hmode', note1, interval, vel, hmem, hiv, h35, h50, ?_⟩
    unfold gestureDispatch
    rw [if_neg (by linarith), if_pos (by linarith), heq]
    dsimp only [MIDIFile.addNote]
    simp
  · rw [if_neg (by assumption)] at hc1 hc2
    have hlen : ((get_scale (melodyCenter st.time) st.mode).getD []).length = 7 :=
      scaleD_length hmode
    obtain ⟨note1, interval, vel, heq, hmem, hiv, h35, h50⟩ :=
      gesturePair_spec hv (i + 1 + 1) m st.time
        ((get_scale (melodyCenter st.time) st.mode).getD []) hlen
    refine ⟨_, hmode, note1, interval, vel, hmem, hiv, h35, h50, ?_⟩
    unfold gestureDispatch
    rw [if_neg (by linarith), if_pos (by linarith), heq]
    dsimp only [MIDIFile.addNote]
    simp



theorem gestureDispatch_last {s : DrawStream} (hv : ValidStream s) (c : ℚ)
    (i : ℕ) (m : MIDIFile) (t : ℚ) (scale : List ℤ) (ln : Option ℤ)
    (hlen : scale.length = 7) :
    ∃ gest, gest ≠ [] ∧
      (gestureDispatch c s i m t scale ln).2.1.notes = m.notes ++ gest ∧
      (¬ (1/2 ≤ c ∧ c < 7/10) →
        some (gestureDispatch c s i m t scale ln).2.2 =
          (gest.getLast?).map NoteEvent.pitch) ∧
      ((1/2 ≤ c ∧ c < 7/10) →
        some (gestureDispatch c s i m t scale ln).2.2 =
          (gest.head?).map NoteEvent.pitch ∧
        some (gestureDispatch c s i m t scale ln).2.2 ≠
          (gest.getLast?).map NoteEvent.pitch) := by
  unfold gestureDispatch
  split
  · obtain ⟨note, vel, dur, heq, hmem, h1, h2, h3, h4⟩ :=
      gestureSingle_spec hv i m t scale ln hlen
    rw [heq]
    dsimp only [MIDIFile.addNote]
    refine ⟨[⟨0, 1, note, t, dur, vel⟩], by simp, rfl, fun hn => rfl, fun hcc => ?_⟩
    exact absurd hcc.1 (by linarith [(by assumption : c < 1/2)] )
  · split
    · obtain ⟨note1, interval, vel, heq, hmem, hiv, h35, h50⟩ :=
        gesturePair_spec hv i m t scale hlen
      rw [heq]
      dsimp only [MIDIFile.addNote]
      have hivpos : 2 ≤ interval := by
        simp at hiv
        rcases hiv with h | h | h | h <;> omega
      refine ⟨[⟨0, 1, note1, t, 4, vel⟩,
        ⟨0, 1, note1 + interval, t + 3/10, 7/2, vel - 8⟩], by simp, by simp,
        fun hn => absurd ⟨le_of_not_lt (by assumption), by assumption⟩ hn,
        fun hcc => ⟨rfl, ?_⟩⟩
      intro hcontra
      rw [show (([⟨0, 1, note1, t, 4, vel⟩,
          ⟨0, 1, note1 + interval, t + 3/10, 7/2, vel - 8⟩] :
            List NoteEvent).getLast?) =
          some ⟨0, 1, note1 + interval, t + 3/10, 7/2, vel - 8⟩ from rfl] at hcontra
      simp only [Option.map_some'] at hcontra
      have h5 := Option.some.inj hcontra
      omega
    · split
      · obtain ⟨n0, n1, n2, heq, hm0, hm1, hm2⟩ :=
          gestureDescend_spec hv i m t scale hlen
        rw [heq]
        dsimp only [MIDIFile.addNote]
        refine ⟨[⟨0, 1, n0, t, 2, 50⟩, ⟨0, 1, n1, t + 6/5, 2, 42⟩,
          ⟨0, 1, n2, t + 12/5, 2, 34⟩], by simp, by simp,
          fun hn => rfl, fun hcc => absurd hcc.2 (by assumption)⟩
      · obtain ⟨n0, n1, n2, n3, heq, hm0, hm1, hm2, hm3⟩ :=
          gestureAscend_spec hv i m t scale hlen
        rw [heq]
        dsimp only [MIDIFile.addNote]
        refine ⟨[⟨0, 1, n0, t, 5/2, 35⟩, ⟨0, 1, n1, t + 4/5, 5/2, 40⟩,
          ⟨0, 1, n2, t + 8/5, 5/2, 45⟩, ⟨0, 1, n3, t + 12/5, 5/2, 50⟩], by simp,
          by simp, fun hn => rfl, fun hcc => absurd hcc.2 (by assumption)⟩



/-- C6 (amended): after the single-note, descending 3-note and ascending
4-note gestures the melody layer's last-pitch variable equals the final
(last-emitted) note of the gesture, but after the interval-pair gesture it
equals the FIRST of the two notes (the pair's root), which differs from the
last-emitted note. -/
theorem C6_last_pitch_update {s : DrawStream} (hv : ValidStream s) (i : ℕ)
    (m : MIDIFile) (st : MelodyState) (hmode : st.mode ∈ modeNames) :
    ∃ gest, gest ≠ [] ∧
      (melodyBody s i m st).2.1.notes = m.notes ++ gest ∧
      (¬ (1/2 ≤ s (if s i < 2/25 then i + 1 + 1 else i + 1) ∧
          s (if s i < 2/25 then i + 1 + 1 else i + 1) < 7/10) →
        (melodyBody s i m st).2.2.lastNote = (gest.getLast?).map NoteEvent.pitch) ∧
      ((1/2 ≤ s (if s i < 2/25 then i + 1 + 1 else i + 1) ∧
          s (if s i < 2/25 then i + 1 + 1 else i + 1) < 7/10) →
        (melodyBody s i m st).2.2.lastNote = (gest.head?).map NoteEvent.pitch ∧
        (melodyBody s i m st).2.2.lastNote ≠ (gest.getLast?).map NoteEvent.pitch) := by
  unfold melodyBody randRandom randChoice
  dsimp only
  split
  · dsimp only
    have hmode' := modeD_mem s hv (i + 1)
    have hlen : ((get_scale (melodyCenter st.time)
        (modeNames.getD (⌊s (i + 1) * (modeNames.length : ℚ)⌋).toNat
          default)).getD []).length = 7 := scaleD_length hmode'
    exact gestureDispatch_last hv (s (i + 1 + 1)) (i + 1 + 1 + 1) m st.time
      ((get_scale (melodyCenter st.time)
        (modeNames.getD (⌊s (i + 1) * (modeNames.length : ℚ)⌋).toNat
          default)).getD []) st.lastNote hlen
  · dsimp only
    have hlen : ((get_scale (melodyCenter st.time) st.mode).getD []).length = 7 :=
      scaleD_length hmode
    exact gestureDispatch_last hv (s (i + 1)) (i + 1 + 1) m st.time
      ((get_scale (melodyCenter st.time) st.mode).getD []) st.lastNote hlen

/-- Witness for the amended C5 at the concrete stream `pairStream`. -/
theorem C5_interval_pair_semitones_witness :
    ValidStream pairStream ∧ "lydian" ∈ modeNames ∧
    (∃ mode ∈ modeNames, ∃ note1 interval vel,
      note1 ∈ (get_scale (melodyCenter
        (⟨8, "lydian", none⟩ : MelodyState).time) mode).getD [] ∧
      interval ∈ ([2, 4, 5, 7] : List ℤ) ∧ 35 ≤ vel ∧ vel ≤ 50 ∧
      (melodyBody pairStream 0 (MIDIFile.mk0 4)
          ⟨8, "lydian", none⟩).2.1.notes =
        (MIDIFile.mk0 4).notes ++
          [⟨0, 1, note1, (⟨8, "lydian", none⟩ : MelodyState).time, 4, vel⟩,
           ⟨0, 1, note1 + interval,
             (⟨8, "lydian", none⟩ : MelodyState).time + 3/10, 7/2, vel - 8⟩]) := by
  have hv : ValidStream pairStream := by
    intro n
    unfold pairStream
    split <;> norm_num
  exact ⟨hv, by decide,
    C5_interval_pair_semitones hv 0 (MIDIFile.mk0 4) ⟨8, "lydian", none⟩
      (by decide) (by norm_num [pairStream]) (by norm_num [pairStream])⟩

/-- Witness for the amended C6 at the concrete stream `pairStream`. -/
theorem C6_last_pitch_update_witness :
    ValidStream pairStream ∧ "lydian" ∈ modeNames ∧
    (∃ gest, gest ≠ [] ∧
      (melodyBody pairStream 0 (MIDIFile.mk0 4)
          ⟨8, "lydian", none⟩).2.1.notes = (MIDIFile.mk0 4).notes ++ gest ∧
      (¬ (1/2 ≤ pairStream (if pairStream 0 < 2/25 then 0 + 1 + 1 else 0 + 1) ∧
          pairStream (if pairStream 0 < 2/25 then 0 + 1 + 1 else 0 + 1) < 7/10) →
        (melodyBody pairStream 0 (MIDIFile.mk0 4)
            ⟨8, "lydian", none⟩).2.2.lastNote =
          (gest.getLast?).map NoteEvent.pitch) ∧
      ((1/2 ≤ pairStream (if pairStream 0 < 2/25 then 0 + 1 + 1 else 0 + 1) ∧
          pairStream (if pairStream 0 < 2/25 then 0 + 1 + 1 else 0 + 1) < 7/10) →
        (melodyBody pairStream 0 (MIDIFile.mk0 4)
            ⟨8, "lydian", none⟩).2.2.lastNote =
          (gest.head?).map NoteEvent.pitch ∧
        (melodyBody pairStream 0 (MIDIFile.mk0 4)
            ⟨8, "lydian", none⟩).2.2.lastNote ≠
          (gest.getLast?).map NoteEvent.pitch)) := by
  have hv : ValidStream pairStream := by
    intro n
    unfold pairStream
    split <;> norm_num
  exact ⟨hv, by decide,
    C6_last_pitch_update hv 0 (MIDIFile.mk0 4) ⟨8, "lydian", none⟩ (by decide)⟩


end Ambient
